import Mathlib

/-!
NeXT Ethernet controller (MB8795): register and DMA model.

A shallow embedding of `hw/net/next-net.c`: the device state, the byte / word /
long register accessors, the two MMIO windows, and the receive path.

Conventions:

* C unsigned integers are natural numbers; every place where the C code
  truncates or wraps (`uint8_t` stores, `uint32_t` subtraction, `size_t`
  addition, the `ssize_t` result) carries an explicit modulus.
* Calls into the rest of the emulator are recorded, in program order, as a
  list of `Effect`s returned next to the new device state.
* Guest physical memory is a function from addresses to bytes.
* The function-local counter `tx_count` of `net_writel` is only ever
  incremented and never read, so it is not part of the state.
* The transmit path copies through a local array of `TX_BUF_SIZE` bytes without
  checking the length.  The model transfers the bytes directly, which is the
  behaviour of the source while the length fits the array; `tx_overrun` is the
  condition under which the source runs past it.  The properties of a transfer
  and of the state after it are stated where `tx_overrun` is false; at oversized
  lengths only the calls made with the unchecked length are evaluated.
-/

namespace NextNet

/-! ## Constants -/

/-- IRQ line index of the transmit DMA interrupt. -/
def TX_I_DMA : Nat := 0

/-- IRQ line index of the receive DMA interrupt. -/
def RX_I_DMA : Nat := 1

/-- IRQ line index of the transmit interrupt. -/
def TX_I : Nat := 2

/-- IRQ line index of the receive interrupt. -/
def RX_I : Nat := 3

/-- Value whose write to the transmit status register resets it. -/
def NET_TXSTAT_CLEAR : Nat := 0xFF

/-- Value whose write to the receive status register resets it. -/
def NET_RXSTAT_CLEAR : Nat := 0xFF

/-- Capacity of the local array `buf` in the transmit branch of `net_writel`. -/
def TX_BUF_SIZE : Nat := 1600

/-- The DMA control and status bit masks used by `next-net.c`.  They are
defined in `hw/m68k/next-cube.h`, which is not among the sources, so the
model takes them as a parameter; `fits` records that each is a 32-bit value. -/
structure DmaBits where
  DMA_ENABLE : Nat
  DMA_SUPDATE : Nat
  DMA_COMPLETE : Nat
  DMA_SETENABLE : Nat
  DMA_SETSUPDATE : Nat
  DMA_DEV2M : Nat
  DMA_CLRCOMPLETE : Nat
  DMA_RESET : Nat
  fits : DMA_ENABLE < 2 ^ 32 ∧ DMA_SUPDATE < 2 ^ 32 ∧ DMA_COMPLETE < 2 ^ 32 ∧
    DMA_SETENABLE < 2 ^ 32 ∧ DMA_SETSUPDATE < 2 ^ 32 ∧ DMA_DEV2M < 2 ^ 32 ∧
    DMA_CLRCOMPLETE < 2 ^ 32 ∧ DMA_RESET < 2 ^ 32

/-- One instance of the parameter: the mask values of the NeXT cube header of
upstream QEMU, used wherever a concrete evaluation is needed. -/
def next_cube : DmaBits where
  DMA_ENABLE := 0x01000000
  DMA_SUPDATE := 0x02000000
  DMA_COMPLETE := 0x08000000
  DMA_SETENABLE := 0x00010000
  DMA_SETSUPDATE := 0x00020000
  DMA_DEV2M := 0x00040000
  DMA_CLRCOMPLETE := 0x00080000
  DMA_RESET := 0x00100000
  fits := by decide

/-! ## Data model -/

/-- The C struct `NextDMA`: one DMA channel descriptor (all fields `uint32_t`). -/
structure NextDMA where
  csr : Nat
  savedbase : Nat
  savedlimit : Nat
  baser : Nat
  base : Nat
  limit : Nat
  chainbase : Nat
  chainlimit : Nat
  basew : Nat
deriving DecidableEq, Repr

/-- The register-visible part of the C struct `NextNetState`: the MAC address
(six `uint8_t`), both DMA channels and the status / mask / mode bytes. -/
structure NextNetState where
  mac : List Nat
  tx_dma : NextDMA
  tx_stat : Nat
  tx_mask : Nat
  tx_mode : Nat
  rx_dma : NextDMA
  rx_stat : Nat
  rx_mask : Nat
  rx_mode : Nat
  rst_mode : Nat
deriving DecidableEq, Repr

/-- A call from the device into the rest of the emulator. -/
inductive Effect where
  /-- `cpu_physical_memory_read(addr, buf, len)`. -/
  | bus_read (addr len : Nat)
  /-- `cpu_physical_memory_write(addr, buf, len)` with the bytes written. -/
  | bus_write (addr : Nat) (data : List Nat)
  /-- `qemu_send_packet(queue, buf, len)` with the bytes handed over. -/
  | send (data : List Nat)
  /-- `qemu_set_irq(s->irq[n], level)`. -/
  | irq (n level : Nat)
deriving DecidableEq, Repr

/-- A zero DMA channel descriptor. -/
def NextDMA.zero : NextDMA :=
  { csr := 0, savedbase := 0, savedlimit := 0, baser := 0, base := 0, limit := 0,
    chainbase := 0, chainlimit := 0, basew := 0 }

/-- The zero-initialised device state (before `nextnet_realize` fills in the MAC). -/
def NextNetState.zero : NextNetState :=
  { mac := [0, 0, 0, 0, 0, 0], tx_dma := NextDMA.zero, tx_stat := 0, tx_mask := 0,
    tx_mode := 0, rx_dma := NextDMA.zero, rx_stat := 0, rx_mask := 0, rx_mode := 0,
    rst_mode := 0 }

/-! ## Machine arithmetic -/

/-- Subtraction of `uint32_t` values, wrapping modulo `2 ^ 32`. -/
def sub32 (a b : Nat) : Nat := (a % 2 ^ 32 + (2 ^ 32 - b % 2 ^ 32)) % 2 ^ 32

/-- The C expression `~m` converted to `uint32_t`. -/
def not32 (m : Nat) : Nat := 0xFFFFFFFF ^^^ (m % 2 ^ 32)

/-- Conversion of a `size_t` value to `ssize_t` (two's complement, 64 bits). -/
def to_ssize (n : Nat) : Int :=
  if n % 2 ^ 64 < 2 ^ 63 then ((n % 2 ^ 64 : Nat) : Int) else ((n % 2 ^ 64 : Nat) : Int) - 2 ^ 64

/-- The bytes `len` bytes long that start at physical address `addr`. -/
def phys_bytes (mem : Nat → Nat) (addr len : Nat) : List Nat :=
  (List.range len).map (fun i => mem (addr + i))

/-! ## Register reads -/

/-- The C function `net_readb`. -/
def net_readb (s : NextNetState) (addr : Nat) : Nat :=
  if addr = 0x6000 then s.tx_stat
  else if addr = 0x6001 then s.tx_mask
  else if addr = 0x6002 then s.rx_stat
  else if addr = 0x6003 then s.rx_mask
  else if addr = 0x6004 then s.tx_mode
  else if addr = 0x6005 then s.rx_mode
  else if addr = 0x6006 then s.rst_mode
  else 0

/-- The C function `net_readw`. -/
def net_readw (_s : NextNetState) (_addr : Nat) : Nat := 0

/-- The C function `net_readl`. -/
def net_readl (s : NextNetState) (addr : Nat) : Nat :=
  if addr = 0x110 then s.tx_dma.csr
  else if addr = 0x4100 then s.tx_dma.savedbase
  else if addr = 0x4104 then s.tx_dma.savedlimit
  else if addr = 0x4114 then s.tx_dma.limit
  else if addr = 0x4310 then s.tx_dma.basew
  else if addr = 0x150 then s.rx_dma.csr
  else if addr = 0x4140 then s.rx_dma.savedbase
  else if addr = 0x4144 then s.rx_dma.savedlimit
  else 0

/-! ## Register writes -/

/-- Modelled from the spec: `qemu_macaddr_default_if_unset` lives in the network
core, outside the sources; the spec describes it as applying a default address
if the address is still unset, and as a no-op once an address is set.  The
default address is a parameter. -/
def qemu_macaddr_default_if_unset (dflt : List Nat) (mac : List Nat) : List Nat :=
  if mac = [0, 0, 0, 0, 0, 0] then dflt else mac

/-- The C function `net_writeb`; `value` is the `uint32_t` argument. -/
def net_writeb (dflt : List Nat) (s : NextNetState) (addr value : Nat) : NextNetState :=
  if addr = 0x6000 then
    if value = NET_TXSTAT_CLEAR then { s with tx_stat := 0x80 }
    else { s with tx_stat := value % 256 }
  else if addr = 0x6001 then { s with tx_mask := value % 256 }
  else if addr = 0x6002 then
    if value = NET_RXSTAT_CLEAR then { s with rx_stat := 0x80 }
    else { s with rx_stat := value % 256 }
  else if addr = 0x6003 then { s with rx_mask := value % 256 }
  else if addr = 0x6004 then { s with tx_mode := value % 256 }
  else if addr = 0x6005 then { s with rx_mode := value % 256 }
  else if addr = 0x6006 then { s with rst_mode := value % 256 }
  else if addr = 0x600d then
    let mac := s.mac.set ((addr &&& 0xF) - 8) (value % 256)
    { s with mac := qemu_macaddr_default_if_unset dflt mac }
  else if addr = 0x6008 ∨ addr = 0x6009 ∨ addr = 0x600a ∨ addr = 0x600b ∨ addr = 0x600c then
    { s with mac := s.mac.set ((addr &&& 0xF) - 8) (value % 256) }
  else if addr = 0x6010 ∨ addr = 0x6011 ∨ addr = 0x6012 ∨ addr = 0x6013 ∨ addr = 0x6014 then
    s
  else s

/-- The C function `net_writew`. -/
def net_writew (s : NextNetState) (_addr _value : Nat) : NextNetState := s

/-- The length computed by the transmit branch:
`(0xFFFFFFF & s->tx_dma.limit) - s->tx_dma.base` in `uint32_t` arithmetic. -/
def tx_len (s : NextNetState) : Nat :=
  sub32 (0xFFFFFFF &&& s.tx_dma.limit) s.tx_dma.base

/-- The transmit copy would run past the end of the local array. -/
def tx_overrun (s : NextNetState) : Bool := decide (TX_BUF_SIZE < tx_len s)

/-- The `if (value & DMA_SETENABLE)` block of the `0x110` case of `net_writel`.
It is the behaviour of the source when `tx_overrun s = false`.  When the length
exceeds `TX_BUF_SIZE` the source writes past the end of `buf`; this function
then records the calls with the unchecked length they are asked for, which is
what the evaluations at oversized lengths show.  The properties of a transfer
and of the state after it are stated under `tx_overrun s = false`. -/
def tx_enable (k : DmaBits) (mem : Nat → Nat) (s : NextNetState) :
    NextNetState × List Effect :=
  let len := tx_len s
  let buf := phys_bytes mem s.tx_dma.base len
  ({ s with
      tx_dma := { s.tx_dma with csr := s.tx_dma.csr ||| (k.DMA_COMPLETE ||| k.DMA_SUPDATE) },
      tx_stat := 0x80 },
    [Effect.bus_read s.tx_dma.base len, Effect.send buf, Effect.irq TX_I_DMA 3])

/-- The `0x110` case of `net_writel`: the transmit CSR. -/
def write_tx_csr (k : DmaBits) (mem : Nat → Nat) (s : NextNetState) (value : Nat) :
    NextNetState × List Effect :=
  let r1 := if value &&& k.DMA_SETENABLE ≠ 0 then tx_enable k mem s else (s, [])
  let s1 := r1.1
  let s2 := if value &&& k.DMA_SETSUPDATE ≠ 0 then
      { s1 with tx_dma := { s1.tx_dma with csr := s1.tx_dma.csr ||| k.DMA_SUPDATE } }
    else s1
  let s3 := if value &&& k.DMA_CLRCOMPLETE ≠ 0 then
      { s2 with tx_dma := { s2.tx_dma with csr := s2.tx_dma.csr &&& not32 k.DMA_COMPLETE } }
    else s2
  let s4 := if value &&& k.DMA_RESET ≠ 0 then
      { s3 with tx_dma := { s3.tx_dma with
          csr := s3.tx_dma.csr &&& not32 (k.DMA_COMPLETE ||| k.DMA_SUPDATE ||| k.DMA_ENABLE) } }
    else s3
  (s4, r1.2)

/-- The `0x150` case of `net_writel`: the receive CSR.  The test of `DMA_DEV2M`
at its head guards a debug print only and has no counterpart here. -/
def write_rx_csr (k : DmaBits) (s : NextNetState) (value : Nat) : NextNetState :=
  let s1 := if value &&& k.DMA_SETENABLE ≠ 0 then
      { s with rx_dma := { s.rx_dma with csr := s.rx_dma.csr ||| k.DMA_ENABLE } }
    else s
  let s2 := if value &&& k.DMA_SETSUPDATE ≠ 0 then
      { s1 with rx_dma := { s1.rx_dma with csr := s1.rx_dma.csr ||| k.DMA_SUPDATE } }
    else s1
  let s3 := if value &&& k.DMA_CLRCOMPLETE ≠ 0 then
      { s2 with rx_dma := { s2.rx_dma with csr := s2.rx_dma.csr &&& not32 k.DMA_COMPLETE } }
    else s2
  if value &&& k.DMA_RESET ≠ 0 then
    { s3 with rx_dma := { s3.rx_dma with
        csr := s3.rx_dma.csr &&& not32 (k.DMA_COMPLETE ||| k.DMA_SUPDATE ||| k.DMA_ENABLE) } }
  else s3

/-- The C function `net_writel`; `value` is the `uint32_t` argument. -/
def net_writel (k : DmaBits) (mem : Nat → Nat) (s : NextNetState) (addr value : Nat) :
    NextNetState × List Effect :=
  if addr = 0x110 then write_tx_csr k mem s value
  else if addr = 0x4100 then ({ s with tx_dma := { s.tx_dma with savedbase := value } }, [])
  else if addr = 0x4104 then ({ s with tx_dma := { s.tx_dma with savedlimit := value } }, [])
  else if addr = 0x4110 then ({ s with tx_dma := { s.tx_dma with base := value } }, [])
  else if addr = 0x4114 then ({ s with tx_dma := { s.tx_dma with limit := value } }, [])
  else if addr = 0x4310 then ({ s with tx_dma := { s.tx_dma with base := value } }, [])
  else if addr = 0x150 then (write_rx_csr k s value, [])
  else if addr = 0x4150 then ({ s with rx_dma := { s.rx_dma with base := value } }, [])
  else if addr = 0x4154 then ({ s with rx_dma := { s.rx_dma with limit := value } }, [])
  else if addr = 0x4158 then ({ s with rx_dma := { s.rx_dma with chainbase := value } }, [])
  else if addr = 0x415c then ({ s with rx_dma := { s.rx_dma with chainlimit := value } }, [])
  else (s, [])

/-! ## MMIO windows -/

/-- The C function `nextnet_mmio_readfn1`; `none` is `g_assert_not_reached()`. -/
def nextnet_mmio_readfn1 (s : NextNetState) (addr size : Nat) : Option Nat :=
  let addr := ((addr + 0x6000) % 2 ^ 64) &&& 0xffff
  if size = 1 then some (net_readb s addr)
  else if size = 2 then some (net_readw s addr)
  else if size = 4 then some (net_readl s addr)
  else none

/-- The C function `nextnet_mmio_writefn1`; the `uint64_t` value is narrowed to
the `uint32_t` parameter of the accessors; `none` is `g_assert_not_reached()`. -/
def nextnet_mmio_writefn1 (k : DmaBits) (dflt : List Nat) (mem : Nat → Nat)
    (s : NextNetState) (addr value size : Nat) : Option (NextNetState × List Effect) :=
  let addr := ((addr + 0x6000) % 2 ^ 64) &&& 0xffff
  if size = 1 then some (net_writeb dflt s addr (value % 2 ^ 32), [])
  else if size = 2 then some (net_writew s addr (value % 2 ^ 32), [])
  else if size = 4 then some (net_writel k mem s addr (value % 2 ^ 32))
  else none

/-- The C function `nextnet_mmio_readfn2`; `none` is `g_assert_not_reached()`. -/
def nextnet_mmio_readfn2 (s : NextNetState) (addr size : Nat) : Option Nat :=
  let addr := ((addr + 0x110) % 2 ^ 64) &&& 0xffff
  if size = 1 then some (net_readb s addr)
  else if size = 2 then some (net_readw s addr)
  else if size = 4 then some (net_readl s addr)
  else none

/-- The C function `nextnet_mmio_writefn2`; `none` is `g_assert_not_reached()`. -/
def nextnet_mmio_writefn2 (k : DmaBits) (dflt : List Nat) (mem : Nat → Nat)
    (s : NextNetState) (addr value size : Nat) : Option (NextNetState × List Effect) :=
  let addr := ((addr + 0x110) % 2 ^ 64) &&& 0xffff
  if size = 1 then some (net_writeb dflt s addr (value % 2 ^ 32), [])
  else if size = 2 then some (net_writew s addr (value % 2 ^ 32), [])
  else if size = 4 then some (net_writel k mem s addr (value % 2 ^ 32))
  else none

/-! ## Receive path -/

/-- The C function `nextnet_can_rx` (the `int` result of `!=` as a `Bool`). -/
def nextnet_can_rx (s : NextNetState) : Bool := decide (s.rx_mode &&& 0x3 ≠ 0)

/-- The length adjustment at the head of `nextnet_rx`, in `size_t` arithmetic:
`if ((size % 32) != 0) { size -= size % 32; size += 32; }`. -/
def rx_align (size : Nat) : Nat :=
  if size % 32 ≠ 0 then ((size - size % 32) + 32) % 2 ^ 64 else size

/-- Result of `nextnet_rx`: the new state, the calls made, the `ssize_t` result. -/
structure RxResult where
  state : NextNetState
  effects : List Effect
  ret : Int

/-- The C function `nextnet_rx`; `buf` gives the byte at each index from the
start of the source buffer (the rounded length may reach past `size`). -/
def nextnet_rx (k : DmaBits) (s : NextNetState) (buf : Nat → Nat) (size : Nat) : RxResult :=
  let size := rx_align size
  let w := Effect.bus_write s.rx_dma.base ((List.range size).map buf)
  let s1 := { s with rx_dma := { s.rx_dma with savedlimit := (s.rx_dma.base + size) % 2 ^ 32 } }
  let s2 := { s1 with rx_dma := { s1.rx_dma with savedbase := s1.rx_dma.base } }
  let s3 := if s2.rx_dma.csr &&& k.DMA_SUPDATE ≠ 0 then
      { s2 with rx_dma := { s2.rx_dma with base := s2.rx_dma.chainbase,
                                           limit := s2.rx_dma.chainlimit } }
    else s2
  let s4 := { s3 with rx_stat := 0x80 }
  let s5 := { s4 with rx_dma := { s4.rx_dma with csr := s4.rx_dma.csr ||| k.DMA_COMPLETE } }
  { state := s5, effects := [w, Effect.irq RX_I_DMA 6], ret := to_ssize size }

/-- The interrupt assertions among a list of calls, as (line, level) pairs. -/
def irqs : List Effect → List (Nat × Nat)
  | [] => []
  | Effect.irq n level :: es => (n, level) :: irqs es
  | Effect.bus_read _ _ :: es => irqs es
  | Effect.bus_write _ _ :: es => irqs es
  | Effect.send _ :: es => irqs es

/-- Rounding up to a multiple of 32, over the unbounded naturals. -/
def round_up_32 (n : Nat) : Nat := 32 * ((n + 31) / 32)

/-! ## Reference dispatchers -/

/-- Modelled from the spec: the delivery of a received packet by the network
backend, which is outside the sources.  The spec (4.2, RX step 1, and 5) has the
backend hand a packet to the receive callback only when the accept predicate
holds; otherwise it keeps the packet and the device is not entered. -/
def network_on_receive (k : DmaBits) (s : NextNetState) (buf : Nat → Nat) (size : Nat) :
    NextNetState × List Effect :=
  if nextnet_can_rx s then
    ((nextnet_rx k s buf size).state, (nextnet_rx k s buf size).effects)
  else (s, [])

/-- The two DMA channels. -/
inductive Channel where
  | tx
  | rx
deriving DecidableEq, Repr

/-- The four actions a CSR write can trigger (spec 4.2). -/
inductive CsrAction where
  | reset
  | enable
  | supdate
  | clrcomplete
deriving DecidableEq, Repr

/-- The CSR of a channel. -/
def Channel.csr (ch : Channel) (s : NextNetState) : Nat :=
  match ch with
  | .tx => s.tx_dma.csr
  | .rx => s.rx_dma.csr

/-- Replace the CSR of a channel. -/
def Channel.set_csr (ch : Channel) (s : NextNetState) (c : Nat) : NextNetState :=
  match ch with
  | .tx => { s with tx_dma := { s.tx_dma with csr := c } }
  | .rx => { s with rx_dma := { s.rx_dma with csr := c } }

/-- Whether a written value triggers an action: its bit is set in the value. -/
def CsrAction.triggered (k : DmaBits) (value : Nat) : CsrAction → Bool
  | .reset => decide (value &&& k.DMA_RESET ≠ 0)
  | .enable => decide (value &&& k.DMA_SETENABLE ≠ 0)
  | .supdate => decide (value &&& k.DMA_SETSUPDATE ≠ 0)
  | .clrcomplete => decide (value &&& k.DMA_CLRCOMPLETE ≠ 0)

/-- What one action does to a channel, in the words of spec 4.2: RESET clears
COMPLETE, SUPDATE and ENABLE; ENABLE-set runs the transmit transfer on the TX
channel and arms the RX channel; SUPDATE-set latches the update-pending flag;
clear-complete clears COMPLETE. -/
def CsrAction.apply (k : DmaBits) (mem : Nat → Nat) (ch : Channel) (a : CsrAction)
    (r : NextNetState × List Effect) : NextNetState × List Effect :=
  match a with
  | .reset =>
    (ch.set_csr r.1 (ch.csr r.1 &&& not32 (k.DMA_COMPLETE ||| k.DMA_SUPDATE ||| k.DMA_ENABLE)),
      r.2)
  | .enable =>
    match ch with
    | .tx => ((tx_enable k mem r.1).1, r.2 ++ (tx_enable k mem r.1).2)
    | .rx => (ch.set_csr r.1 (ch.csr r.1 ||| k.DMA_ENABLE), r.2)
  | .supdate => (ch.set_csr r.1 (ch.csr r.1 ||| k.DMA_SUPDATE), r.2)
  | .clrcomplete => (ch.set_csr r.1 (ch.csr r.1 &&& not32 k.DMA_COMPLETE), r.2)

/-- A reference dispatcher: decode the written value and apply the triggered
actions in the given order, starting from the state before the write. -/
def csr_dispatch (k : DmaBits) (mem : Nat → Nat) (ch : Channel) (order : List CsrAction)
    (value : Nat) (s : NextNetState) : NextNetState × List Effect :=
  order.foldl (fun r a => if a.triggered k value then a.apply k mem ch r else r) (s, [])

/-- The order of actions the spec gives: RESET, ENABLE-set, SUPDATE-set,
clear-complete. -/
def spec_order : List CsrAction :=
  [CsrAction.reset, CsrAction.enable, CsrAction.supdate, CsrAction.clrcomplete]

/-- The order of the `if` blocks in `net_writel`: ENABLE-set, SUPDATE-set,
clear-complete, RESET. -/
def code_order : List CsrAction :=
  [CsrAction.enable, CsrAction.supdate, CsrAction.clrcomplete, CsrAction.reset]

/-! ## Windows and event sequences -/

/-- Size of the first register window (`next.net1`), from `nextnet_realize`. -/
def REGMEM1_SIZE : Nat := 0x1000

/-- Size of the second register window (`next.net2`), from `nextnet_realize`. -/
def REGMEM2_SIZE : Nat := 0x4400

/-- The address normalisation at the head of the first window's accessors:
`addr = (addr + 0x6000) & 0xffff` on a 64-bit `hwaddr`. -/
def mmio1_addr (addr : Nat) : Nat := ((addr + 0x6000) % 2 ^ 64) &&& 0xffff

/-- The address normalisation at the head of the second window's accessors:
`addr = (addr + 0x110) & 0xffff` on a 64-bit `hwaddr`. -/
def mmio2_addr (addr : Nat) : Nat := ((addr + 0x110) % 2 ^ 64) &&& 0xffff

/-- The 4-byte offsets of the register map. -/
def long_registers : List Nat :=
  [0x110, 0x150, 0x4100, 0x4104, 0x4110, 0x4114, 0x4310, 0x4140, 0x4144, 0x4150, 0x4154,
   0x4158, 0x415c]

/-- A 1-byte offset is one the register map does not list. -/
def unmapped_byte (addr : Nat) : Prop :=
  ¬ (0x6000 ≤ addr ∧ addr ≤ 0x6006) ∧ ¬ (0x6008 ≤ addr ∧ addr ≤ 0x600d)

/-- A 4-byte offset is one the register map does not list. -/
def unmapped_long (addr : Nat) : Prop := addr ∉ long_registers

/-- Something that happens to the device: a register write through the first or
the second window (with the guest memory at that moment), or a packet handed to
`nextnet_rx`. -/
inductive Event where
  | write1 (mem : Nat → Nat) (addr value size : Nat)
  | write2 (mem : Nat → Nat) (addr value size : Nat)
  | rx (buf : Nat → Nat) (size : Nat)

/-- The access width of a write event is one the memory core delivers. -/
def Event.valid : Event → Prop
  | .write1 _ _ _ size => size = 1 ∨ size = 2 ∨ size = 4
  | .write2 _ _ _ size => size = 1 ∨ size = 2 ∨ size = 4
  | .rx _ _ => True

/-- The state after one event; `none` when an accessor hits `g_assert_not_reached()`. -/
def step (k : DmaBits) (dflt : List Nat) (s : NextNetState) : Event → Option NextNetState
  | .write1 mem addr value size =>
    (nextnet_mmio_writefn1 k dflt mem s addr value size).map Prod.fst
  | .write2 mem addr value size =>
    (nextnet_mmio_writefn2 k dflt mem s addr value size).map Prod.fst
  | .rx buf size => some (nextnet_rx k s buf size).state

/-- The state after a sequence of events, in order. -/
def run (k : DmaBits) (dflt : List Nat) : NextNetState → List Event → Option NextNetState
  | s, [] => some s
  | s, e :: es =>
    match step k dflt s e with
    | some s1 => run k dflt s1 es
    | none => none

/-- The CSR bit invariant: the RX CSR has no bit outside
`DMA_ENABLE | DMA_SUPDATE | DMA_COMPLETE` and the TX CSR none outside
`DMA_SUPDATE | DMA_COMPLETE`. -/
def csr_invariant (k : DmaBits) (s : NextNetState) : Prop :=
  s.rx_dma.csr &&& (k.DMA_ENABLE ||| k.DMA_SUPDATE ||| k.DMA_COMPLETE) = s.rx_dma.csr ∧
  s.tx_dma.csr &&& (k.DMA_SUPDATE ||| k.DMA_COMPLETE) = s.tx_dma.csr

/-- The event is a 4-byte write to the TX CSR with the ENABLE-set bit, arriving
in a state whose TX length exceeds the local array: the source overruns `buf`. -/
def Event.overruns (k : DmaBits) (s : NextNetState) : Event → Bool
  | .write1 _ addr value size =>
    decide (size = 4 ∧ mmio1_addr addr = 0x110 ∧ (value % 2 ^ 32) &&& k.DMA_SETENABLE ≠ 0) &&
      tx_overrun s
  | .write2 _ addr value size =>
    decide (size = 4 ∧ mmio2_addr addr = 0x110 ∧ (value % 2 ^ 32) &&& k.DMA_SETENABLE ≠ 0) &&
      tx_overrun s
  | .rx _ _ => false

/-- No event of the sequence, met in the state the earlier events lead to,
overruns the local transmit array. -/
def run_fits (k : DmaBits) (dflt : List Nat) : NextNetState → List Event → Bool
  | _, [] => true
  | s, e :: es =>
    !(e.overruns k s) &&
      (match step k dflt s e with
       | some s1 => run_fits k dflt s1 es
       | none => true)

/-! ## Sample inputs -/

/-- A sample guest memory: the byte at address `a` is `a mod 256`. -/
def sample_mem : Nat → Nat := fun a => a % 256

/-- A sample state: TX base `0x1000`, TX limit `0x1010`, everything else zero. -/
def tx_state_small : NextNetState :=
  { NextNetState.zero with tx_dma := { NextDMA.zero with base := 0x1000, limit := 0x1010 } }

/-- A sample state: TX base `0x1000`, TX limit `0x10001010` (bit 28 set). -/
def tx_state_high : NextNetState :=
  { NextNetState.zero with tx_dma := { NextDMA.zero with base := 0x1000, limit := 0x10001010 } }

/-- A sample state: RX mode 1, RX base `0x2000`, everything else zero. -/
def rx_state_open : NextNetState :=
  { NextNetState.zero with rx_mode := 1, rx_dma := { NextDMA.zero with base := 0x2000 } }

/-- A sample state: both CSRs hold ENABLE, SUPDATE and COMPLETE of `next_cube`. -/
def csr_state_full : NextNetState :=
  { NextNetState.zero with
    tx_dma := { NextDMA.zero with csr := 0x0B000000, base := 0x1000, limit := 0x1010 },
    rx_dma := { NextDMA.zero with csr := 0x0B000000, base := 0x2000 } }

/-- A sample state: TX base `0x1000`, TX limit `0x2000`, a length of 4096 bytes. -/
def tx_state_oversized : NextNetState :=
  { NextNetState.zero with tx_dma := { NextDMA.zero with base := 0x1000, limit := 0x2000 } }

/-- A sample state: TX base `0x1010`, TX limit `0x1000`, limit below base. -/
def tx_state_inverted : NextNetState :=
  { NextNetState.zero with tx_dma := { NextDMA.zero with base := 0x1010, limit := 0x1000 } }

/-- A sample state: TX base `0xFFFFFFFF`, TX limit 0, limit below base. -/
def tx_state_inverted_top : NextNetState :=
  { NextNetState.zero with tx_dma := { NextDMA.zero with base := 0xFFFFFFFF, limit := 0 } }

/-- A sample state: the MAC address set by `nextnet_realize`, everything else zero. -/
def realized_state : NextNetState :=
  { NextNetState.zero with mac := [0x00, 0x00, 0x0f, 0x00, 0xf3, 0x02] }

/-- A sample run: arm and chain the RX channel, open the RX gate, receive 10
bytes, set TX base `0x1000` and TX limit `0x1010`, start the 16-byte transmit
through the second window, then a 2-byte write. -/
def sample_events : List Event :=
  [Event.write2 sample_mem 0x40 0x30000 4, Event.write1 sample_mem 5 1 1,
   Event.rx sample_mem 10, Event.write2 sample_mem 0x4000 0x1000 4,
   Event.write2 sample_mem 0x4004 0x1010 4, Event.write2 sample_mem 0 0x10000 4,
   Event.write1 sample_mem 0 0xFF 2]

/-- A run that programs a TX length of 4096 bytes and then starts the transmit. -/
def overrun_events : List Event :=
  [Event.write2 sample_mem 0x4000 0x1000 4, Event.write2 sample_mem 0x4004 0x2000 4,
   Event.write2 sample_mem 0 0x10000 4]

/-! ## Bit-level lemmas -/

theorem lor_land_right (a c : Nat) : (a ||| c) &&& c = c := by
  apply Nat.eq_of_testBit_eq; intro i
  simp only [Nat.testBit_land, Nat.testBit_lor]
  cases a.testBit i <;> cases c.testBit i <;> rfl

theorem lor_lor_land_left (a c u : Nat) : (a ||| (c ||| u)) &&& c = c := by
  apply Nat.eq_of_testBit_eq; intro i
  simp only [Nat.testBit_land, Nat.testBit_lor]
  cases a.testBit i <;> cases c.testBit i <;> cases u.testBit i <;> rfl

theorem lor_lor_land_right (a c u : Nat) : (a ||| (c ||| u)) &&& u = u := by
  apply Nat.eq_of_testBit_eq; intro i
  simp only [Nat.testBit_land, Nat.testBit_lor]
  cases a.testBit i <;> cases c.testBit i <;> cases u.testBit i <;> rfl

theorem lor_land_left_of (a u c : Nat) (h : a &&& c = c) : (a ||| u) &&& c = c := by
  apply Nat.eq_of_testBit_eq; intro i
  have hi := congrArg (fun x => x.testBit i) h
  simp only [Nat.testBit_land] at hi
  simp only [Nat.testBit_land, Nat.testBit_lor]
  revert hi
  cases a.testBit i <;> cases c.testBit i <;> cases u.testBit i <;> simp

theorem land_not32_of_sub (a m x : Nat) (h : x &&& m = x) : (a &&& not32 m) &&& x = 0 := by
  apply Nat.eq_of_testBit_eq; intro i
  have hi := congrArg (fun y => y.testBit i) h
  have h32 : (0xFFFFFFFF : Nat) = 2 ^ 32 - 1 := by norm_num
  simp only [Nat.testBit_land] at hi
  unfold not32
  rw [h32]
  simp only [Nat.testBit_land, Nat.testBit_xor, Nat.testBit_two_pow_sub_one,
    Nat.testBit_mod_two_pow, Nat.zero_testBit]
  revert hi
  by_cases h1 : i < 32 <;> cases a.testBit i <;> cases m.testBit i <;>
    cases x.testBit i <;> simp [h1]

theorem land_lor3_first (c u e : Nat) : c &&& (c ||| u ||| e) = c := by
  apply Nat.eq_of_testBit_eq; intro i
  simp only [Nat.testBit_land, Nat.testBit_lor]
  cases c.testBit i <;> cases u.testBit i <;> cases e.testBit i <;> rfl

theorem land_lor3_second (c u e : Nat) : u &&& (c ||| u ||| e) = u := by
  apply Nat.eq_of_testBit_eq; intro i
  simp only [Nat.testBit_land, Nat.testBit_lor]
  cases c.testBit i <;> cases u.testBit i <;> cases e.testBit i <;> rfl

theorem land_lor3_third (c u e : Nat) : e &&& (c ||| u ||| e) = e := by
  apply Nat.eq_of_testBit_eq; intro i
  simp only [Nat.testBit_land, Nat.testBit_lor]
  cases c.testBit i <;> cases u.testBit i <;> cases e.testBit i <;> rfl

theorem reset_clears (a c u e : Nat) :
    (a &&& not32 (c ||| u ||| e)) &&& c = 0 ∧ (a &&& not32 (c ||| u ||| e)) &&& u = 0 ∧
    (a &&& not32 (c ||| u ||| e)) &&& e = 0 :=
  ⟨land_not32_of_sub _ _ _ (land_lor3_first c u e),
   land_not32_of_sub _ _ _ (land_lor3_second c u e),
   land_not32_of_sub _ _ _ (land_lor3_third c u e)⟩

theorem land_low_mask (l : Nat) : 0xFFFFFFF &&& l = l % 2 ^ 28 := by
  rw [Nat.land_comm]
  exact Nat.and_pow_two_sub_one_eq_mod l 28

theorem land_three (v : Nat) : v &&& 0x3 = v % 4 :=
  Nat.and_pow_two_sub_one_eq_mod v 2

theorem phys_bytes_length (mem : Nat → Nat) (addr len : Nat) :
    (phys_bytes mem addr len).length = len := by
  simp [phys_bytes]

theorem phys_bytes_get (mem : Nat → Nat) (addr len i : Nat) (h : i < len) :
    (phys_bytes mem addr len)[i]? = some (mem (addr + i)) := by
  simp [phys_bytes, List.getElem?_map, List.getElem?_range h]

theorem tx_len_eq (s : NextNetState) :
    (tx_len s : Int) = (((s.tx_dma.limit % 2 ^ 28 : Nat) : Int) - (s.tx_dma.base : Int)) % 2 ^ 32 := by
  unfold tx_len sub32
  rw [land_low_mask]
  omega

theorem tx_len_of_lt (s : NextNetState) (h1 : s.tx_dma.base < s.tx_dma.limit)
    (h2 : s.tx_dma.limit < 2 ^ 28) : tx_len s = s.tx_dma.limit - s.tx_dma.base := by
  unfold tx_len sub32
  rw [land_low_mask]
  omega

theorem write_tx_csr_effects (k : DmaBits) (mem : Nat → Nat) (s : NextNetState) (v : Nat)
    (h : v &&& k.DMA_SETENABLE ≠ 0) :
    (write_tx_csr k mem s v).2 =
      [Effect.bus_read s.tx_dma.base (tx_len s),
       Effect.send (phys_bytes mem s.tx_dma.base (tx_len s)),
       Effect.irq TX_I_DMA 3] := by
  simp [write_tx_csr, tx_enable, h]

/-! ## Transmit transfer -/

/-- Claim C1, as the code has it: write `M` for the TX limit masked with
`0xFFFFFFF`, as the code masks it before subtracting.  In a device state with TX
base `B` where `M > B` and the length `M - B` fits the 1600-byte transfer array,
a 4-byte write to the TX CSR (0x110) with the ENABLE-set bit set performs exactly
one bus read, of exactly `M - B` bytes starting at physical address `B`, and
exactly one network send whose payload is exactly those `M - B` bytes in order.
When the TX limit is below `2^28`, `M` is the limit itself. -/
theorem tx_transfer_masked_length (k : DmaBits) (mem : Nat → Nat) (s : NextNetState) (v : Nat)
    (h : v &&& k.DMA_SETENABLE ≠ 0)
    (hlb : s.tx_dma.base < 0xFFFFFFF &&& s.tx_dma.limit)
    (hfit : tx_overrun s = false) :
    (net_writel k mem s 0x110 v).2 =
        [Effect.bus_read s.tx_dma.base ((0xFFFFFFF &&& s.tx_dma.limit) - s.tx_dma.base),
         Effect.send (phys_bytes mem s.tx_dma.base
           ((0xFFFFFFF &&& s.tx_dma.limit) - s.tx_dma.base)),
         Effect.irq TX_I_DMA 3] ∧
      (phys_bytes mem s.tx_dma.base ((0xFFFFFFF &&& s.tx_dma.limit) - s.tx_dma.base)).length =
        (0xFFFFFFF &&& s.tx_dma.limit) - s.tx_dma.base ∧
      (∀ i, i < (0xFFFFFFF &&& s.tx_dma.limit) - s.tx_dma.base →
        (phys_bytes mem s.tx_dma.base ((0xFFFFFFF &&& s.tx_dma.limit) - s.tx_dma.base))[i]? =
          some (mem (s.tx_dma.base + i))) ∧
      (0xFFFFFFF &&& s.tx_dma.limit) - s.tx_dma.base ≤ TX_BUF_SIZE ∧
      (s.tx_dma.limit < 2 ^ 28 → 0xFFFFFFF &&& s.tx_dma.limit = s.tx_dma.limit) := by
  have hl : tx_len s = (0xFFFFFFF &&& s.tx_dma.limit) - s.tx_dma.base := by
    unfold tx_len sub32
    rw [land_low_mask] at hlb ⊢
    omega
  have hcap : tx_len s ≤ TX_BUF_SIZE := by
    simp only [tx_overrun, decide_eq_false_iff_not, not_lt] at hfit
    exact hfit
  refine ⟨?_, phys_bytes_length _ _ _, fun i hi => phys_bytes_get _ _ _ _ hi, hl ▸ hcap,
    fun h2 => ?_⟩
  · simp only [net_writel, if_true]
    rw [write_tx_csr_effects k mem s v h, hl]
  · rw [land_low_mask]
    exact Nat.mod_eq_of_lt h2

/-- Claim C1 at concrete inputs: base `0x1000` with limit `0x1010`, and with
limit `0x10001010`, whose bit 28 is stripped; ENABLE-set, 16 bytes each. -/
theorem tx_transfer_masked_length_witness :
    (0x10000 &&& next_cube.DMA_SETENABLE ≠ 0) ∧
    (tx_state_small.tx_dma.base < 0xFFFFFFF &&& tx_state_small.tx_dma.limit) ∧
    (tx_overrun tx_state_small = false) ∧
    (tx_state_high.tx_dma.base < 0xFFFFFFF &&& tx_state_high.tx_dma.limit) ∧
    (tx_overrun tx_state_high = false) ∧
    (net_writel next_cube sample_mem tx_state_small 0x110 0x10000).2 =
      [Effect.bus_read 0x1000 16,
       Effect.send [0, 1, 2, 3, 4, 5, 6, 7, 8, 9, 10, 11, 12, 13, 14, 15],
       Effect.irq TX_I_DMA 3] ∧
    (net_writel next_cube sample_mem tx_state_high 0x110 0x10000).2 =
      [Effect.bus_read 0x1000 16,
       Effect.send [0, 1, 2, 3, 4, 5, 6, 7, 8, 9, 10, 11, 12, 13, 14, 15],
       Effect.irq TX_I_DMA 3] :=
  ⟨by decide, by decide, by decide, by decide, by decide, by
    have h := (tx_transfer_masked_length next_cube sample_mem tx_state_small 0x10000
      (by decide) (by decide) (by decide)).1
    rw [h]; decide, by
    have h := (tx_transfer_masked_length next_cube sample_mem tx_state_high 0x10000
      (by decide) (by decide) (by decide)).1
    rw [h]; decide⟩

/-- Claim C1 as stated fails: with TX base `0x1000` and TX limit `0x10001010`
(so `L > B` and `L - B = 0x10000010`), the ENABLE-set write reads and sends 16
bytes, not `L - B` bytes. -/
theorem tx_transfer_length_counterexample :
    tx_state_high.tx_dma.base < tx_state_high.tx_dma.limit ∧
    tx_state_high.tx_dma.limit < 2 ^ 32 ∧
    0x10000 &&& next_cube.DMA_SETENABLE ≠ 0 ∧
    tx_state_high.tx_dma.limit - tx_state_high.tx_dma.base = 0x10000010 ∧
    (net_writel next_cube sample_mem tx_state_high 0x110 0x10000).2 =
      [Effect.bus_read 0x1000 16,
       Effect.send [0, 1, 2, 3, 4, 5, 6, 7, 8, 9, 10, 11, 12, 13, 14, 15],
       Effect.irq TX_I_DMA 3] := by
  decide

/-- Claim C2: in a device state whose TX length fits the 1600-byte transfer
array, a 4-byte write to the TX CSR (0x110) of a value with the ENABLE-set bit
set and neither the clear-complete bit nor the RESET bit set leaves
`DMA_COMPLETE` and `DMA_SUPDATE` set in the TX CSR, makes the TX status byte read
`0x80`, and asserts the TX-DMA interrupt line exactly once and no other line. -/
theorem tx_transfer_post_state (k : DmaBits) (mem : Nat → Nat) (s : NextNetState) (v : Nat)
    (hen : v &&& k.DMA_SETENABLE ≠ 0) (hclr : v &&& k.DMA_CLRCOMPLETE = 0)
    (hrst : v &&& k.DMA_RESET = 0) (_hfit : tx_overrun s = false) :
    (net_writel k mem s 0x110 v).1.tx_dma.csr &&& k.DMA_COMPLETE = k.DMA_COMPLETE ∧
    (net_writel k mem s 0x110 v).1.tx_dma.csr &&& k.DMA_SUPDATE = k.DMA_SUPDATE ∧
    (net_writel k mem s 0x110 v).1.tx_stat = 0x80 ∧
    net_readb (net_writel k mem s 0x110 v).1 0x6000 = 0x80 ∧
    irqs (net_writel k mem s 0x110 v).2 = [(TX_I_DMA, 3)] := by
  have hfx : irqs (net_writel k mem s 0x110 v).2 = [(TX_I_DMA, 3)] := by
    simp only [net_writel, if_true]
    rw [write_tx_csr_effects k mem s v hen]
    rfl
  refine ⟨?_, ?_, ?_, ?_, hfx⟩
  · by_cases hsu : v &&& k.DMA_SETSUPDATE = 0
    · simp [net_writel, write_tx_csr, tx_enable, hen, hclr, hrst, hsu, lor_lor_land_left]
    · simp [net_writel, write_tx_csr, tx_enable, hen, hclr, hrst, hsu]
      exact lor_land_left_of _ _ _ (lor_lor_land_left _ _ _)
  · by_cases hsu : v &&& k.DMA_SETSUPDATE = 0
    · simp [net_writel, write_tx_csr, tx_enable, hen, hclr, hrst, hsu, lor_lor_land_right]
    · simp [net_writel, write_tx_csr, tx_enable, hen, hclr, hrst, hsu, lor_land_right]
  · by_cases hsu : v &&& k.DMA_SETSUPDATE = 0 <;>
      simp [net_writel, write_tx_csr, tx_enable, hen, hclr, hrst, hsu]
  · by_cases hsu : v &&& k.DMA_SETSUPDATE = 0 <;>
      simp [net_writel, write_tx_csr, tx_enable, net_readb, hen, hclr, hrst, hsu]

/-- Claim C2 at a concrete input: the ENABLE-set write on the sample state. -/
theorem tx_transfer_post_state_witness :
    (0x10000 &&& next_cube.DMA_SETENABLE ≠ 0) ∧
    (0x10000 &&& next_cube.DMA_CLRCOMPLETE = 0) ∧
    (0x10000 &&& next_cube.DMA_RESET = 0) ∧
    (tx_overrun tx_state_small = false) ∧
    (net_writel next_cube sample_mem tx_state_small 0x110 0x10000).1.tx_dma.csr
      &&& next_cube.DMA_COMPLETE = next_cube.DMA_COMPLETE ∧
    irqs (net_writel next_cube sample_mem tx_state_small 0x110 0x10000).2 = [(TX_I_DMA, 3)] :=
  ⟨by decide, by decide, by decide, by decide,
    (tx_transfer_post_state next_cube sample_mem tx_state_small 0x10000
      (by decide) (by decide) (by decide) (by decide)).1,
    (tx_transfer_post_state next_cube sample_mem tx_state_small 0x10000
      (by decide) (by decide) (by decide) (by decide)).2.2.2.2⟩

/-! ## Receive delivery -/

theorem rx_align_eq (n : Nat) (h : n + 32 < 2 ^ 64) : rx_align n = round_up_32 n := by
  unfold rx_align round_up_32
  split <;> omega

theorem rx_align_mod (b n : Nat) :
    (b + rx_align n) % 2 ^ 32 = (b + round_up_32 n) % 2 ^ 32 := by
  unfold rx_align round_up_32
  split <;> omega

theorem to_ssize_of_lt (n : Nat) (h : n < 2 ^ 63) : to_ssize n = (n : Int) := by
  unfold to_ssize
  have h1 : n % 2 ^ 64 = n := Nat.mod_eq_of_lt (by omega)
  rw [h1, if_pos h]

/-- Claim C3: for a delivered length `N` with `N + 32` overflowing neither size
type of the signature (`size_t` argument, `ssize_t` result), `nextnet_rx` makes
one bus write, at the RX base, of exactly `32 * ceil(N / 32)` bytes taken in
order from the source buffer, and returns that number; the written length is the
least multiple of 32 that is at least `N`, equals `N` when `N` is a multiple of
32, and is below `N + 32`. -/
theorem rx_length_alignment (k : DmaBits) (s : NextNetState) (buf : Nat → Nat) (n : Nat)
    (h : n + 32 < 2 ^ 63) :
    (nextnet_rx k s buf n).effects =
        [Effect.bus_write s.rx_dma.base ((List.range (round_up_32 n)).map buf),
         Effect.irq RX_I_DMA 6] ∧
      ((List.range (round_up_32 n)).map buf).length = 32 * ((n + 31) / 32) ∧
      (nextnet_rx k s buf n).ret = ((32 * ((n + 31) / 32) : Nat) : Int) ∧
      32 ∣ round_up_32 n ∧ n ≤ round_up_32 n ∧
      (∀ m, 32 ∣ m → n ≤ m → round_up_32 n ≤ m) ∧
      (n % 32 = 0 → round_up_32 n = n) ∧
      round_up_32 n < n + 32 := by
  have ha : rx_align n = round_up_32 n := rx_align_eq n (by omega)
  refine ⟨?_, ?_, ?_, ?_, ?_, ?_, ?_, ?_⟩
  · simp [nextnet_rx, ha]
  · simp [round_up_32]
  · simp only [nextnet_rx, ha]
    rw [to_ssize_of_lt _ (by unfold round_up_32; omega)]
    rfl
  · exact ⟨(n + 31) / 32, rfl⟩
  · unfold round_up_32; omega
  · intro m hm hnm
    obtain ⟨c, rfl⟩ := hm
    unfold round_up_32; omega
  · intro h0; unfold round_up_32; omega
  · unfold round_up_32; omega

/-- Claim C3 at a concrete input: a 10-byte delivery writes and returns 32. -/
theorem rx_length_alignment_witness :
    (10 + 32 < 2 ^ 63) ∧ (nextnet_rx next_cube NextNetState.zero sample_mem 10).ret = 32 :=
  ⟨by decide, (rx_length_alignment next_cube NextNetState.zero sample_mem 10 (by decide)).2.2.1⟩

/-- Claim C4: after `nextnet_rx` on a state whose RX mode has a low bit set, the
RX saved base is the RX base from before the delivery, the RX saved limit is
that base plus the length rounded up to a multiple of 32, modulo `2^32`, the RX
status byte is `0x80`, `DMA_COMPLETE` is set in the RX CSR, and the RX-DMA
interrupt line is asserted exactly once and no other line. -/
theorem rx_completion_record (k : DmaBits) (s : NextNetState) (buf : Nat → Nat) (n : Nat)
    (_hmode : s.rx_mode &&& 0x3 ≠ 0) :
    (nextnet_rx k s buf n).state.rx_dma.savedbase = s.rx_dma.base ∧
    (nextnet_rx k s buf n).state.rx_dma.savedlimit =
      (s.rx_dma.base + round_up_32 n) % 2 ^ 32 ∧
    32 ∣ round_up_32 n ∧ n ≤ round_up_32 n ∧ round_up_32 n < n + 32 ∧
    (nextnet_rx k s buf n).state.rx_stat = 0x80 ∧
    net_readb (nextnet_rx k s buf n).state 0x6002 = 0x80 ∧
    (nextnet_rx k s buf n).state.rx_dma.csr &&& k.DMA_COMPLETE = k.DMA_COMPLETE ∧
    irqs (nextnet_rx k s buf n).effects = [(RX_I_DMA, 6)] := by
  refine ⟨?_, ?_, ⟨(n + 31) / 32, rfl⟩, ?_, ?_, ?_, ?_, ?_, rfl⟩
  · by_cases hsu : s.rx_dma.csr &&& k.DMA_SUPDATE = 0 <;> simp [nextnet_rx, hsu]
  · have hm := rx_align_mod s.rx_dma.base n
    by_cases hsu : s.rx_dma.csr &&& k.DMA_SUPDATE = 0 <;>
      (simp [nextnet_rx, hsu]; omega)
  · unfold round_up_32; omega
  · unfold round_up_32; omega
  · by_cases hsu : s.rx_dma.csr &&& k.DMA_SUPDATE = 0 <;> simp [nextnet_rx, hsu]
  · by_cases hsu : s.rx_dma.csr &&& k.DMA_SUPDATE = 0 <;> simp [nextnet_rx, net_readb, hsu]
  · by_cases hsu : s.rx_dma.csr &&& k.DMA_SUPDATE = 0 <;>
      simp [nextnet_rx, hsu, lor_land_right]

/-- Claim C4 at a concrete input: 10 bytes delivered at RX base `0x2000`. -/
theorem rx_completion_record_witness :
    (rx_state_open.rx_mode &&& 0x3 ≠ 0) ∧
    (nextnet_rx next_cube rx_state_open sample_mem 10).state.rx_dma.savedlimit = 0x2020 :=
  ⟨by decide, by
    rw [(rx_completion_record next_cube rx_state_open sample_mem 10 (by decide)).2.1]
    decide⟩

/-- Claim C5: if `DMA_SUPDATE` is set in the RX CSR before the delivery, then
after `nextnet_rx` the RX base and limit are the chain base and chain limit from
before; if it is not set, RX base and limit are unchanged; the chain base and
chain limit are unchanged in both cases. -/
theorem rx_buffer_chaining (k : DmaBits) (s : NextNetState) (buf : Nat → Nat) (n : Nat) :
    (s.rx_dma.csr &&& k.DMA_SUPDATE ≠ 0 →
      (nextnet_rx k s buf n).state.rx_dma.base = s.rx_dma.chainbase ∧
      (nextnet_rx k s buf n).state.rx_dma.limit = s.rx_dma.chainlimit) ∧
    (s.rx_dma.csr &&& k.DMA_SUPDATE = 0 →
      (nextnet_rx k s buf n).state.rx_dma.base = s.rx_dma.base ∧
      (nextnet_rx k s buf n).state.rx_dma.limit = s.rx_dma.limit) ∧
    (nextnet_rx k s buf n).state.rx_dma.chainbase = s.rx_dma.chainbase ∧
    (nextnet_rx k s buf n).state.rx_dma.chainlimit = s.rx_dma.chainlimit := by
  refine ⟨fun h => ?_, fun h => ?_, ?_, ?_⟩
  · simp [nextnet_rx, h]
  · simp [nextnet_rx, h]
  · by_cases hsu : s.rx_dma.csr &&& k.DMA_SUPDATE = 0 <;> simp [nextnet_rx, hsu]
  · by_cases hsu : s.rx_dma.csr &&& k.DMA_SUPDATE = 0 <;> simp [nextnet_rx, hsu]

/-! ## CSR writes -/

/-- Claim C7: a 4-byte write with the RESET bit set, to the TX CSR (0x110) or
the RX CSR (0x150), leaves `DMA_COMPLETE`, `DMA_SUPDATE` and `DMA_ENABLE` all
clear in the targeted CSR and leaves that channel's base, limit, chain base,
chain limit, saved base and saved limit as they were.  For the TX CSR this is
stated for writes that stay within the transfer array: if the value also has the
ENABLE-set bit, the TX length fits the 1600 bytes. -/
theorem csr_reset (k : DmaBits) (mem : Nat → Nat) (s : NextNetState) (v : Nat)
    (h : v &&& k.DMA_RESET ≠ 0) :
    ((v &&& k.DMA_SETENABLE ≠ 0 → tx_overrun s = false) →
     (net_writel k mem s 0x110 v).1.tx_dma.csr &&& k.DMA_COMPLETE = 0 ∧
     (net_writel k mem s 0x110 v).1.tx_dma.csr &&& k.DMA_SUPDATE = 0 ∧
     (net_writel k mem s 0x110 v).1.tx_dma.csr &&& k.DMA_ENABLE = 0 ∧
     (net_writel k mem s 0x110 v).1.tx_dma.base = s.tx_dma.base ∧
     (net_writel k mem s 0x110 v).1.tx_dma.limit = s.tx_dma.limit ∧
     (net_writel k mem s 0x110 v).1.tx_dma.chainbase = s.tx_dma.chainbase ∧
     (net_writel k mem s 0x110 v).1.tx_dma.chainlimit = s.tx_dma.chainlimit ∧
     (net_writel k mem s 0x110 v).1.tx_dma.savedbase = s.tx_dma.savedbase ∧
     (net_writel k mem s 0x110 v).1.tx_dma.savedlimit = s.tx_dma.savedlimit) ∧
    ((net_writel k mem s 0x150 v).1.rx_dma.csr &&& k.DMA_COMPLETE = 0 ∧
     (net_writel k mem s 0x150 v).1.rx_dma.csr &&& k.DMA_SUPDATE = 0 ∧
     (net_writel k mem s 0x150 v).1.rx_dma.csr &&& k.DMA_ENABLE = 0 ∧
     (net_writel k mem s 0x150 v).1.rx_dma.base = s.rx_dma.base ∧
     (net_writel k mem s 0x150 v).1.rx_dma.limit = s.rx_dma.limit ∧
     (net_writel k mem s 0x150 v).1.rx_dma.chainbase = s.rx_dma.chainbase ∧
     (net_writel k mem s 0x150 v).1.rx_dma.chainlimit = s.rx_dma.chainlimit ∧
     (net_writel k mem s 0x150 v).1.rx_dma.savedbase = s.rx_dma.savedbase ∧
     (net_writel k mem s 0x150 v).1.rx_dma.savedlimit = s.rx_dma.savedlimit) := by
  constructor
  · intro _
    simp only [net_writel, if_true, write_tx_csr, h, ne_eq, not_false_eq_true, tx_enable]
    refine ⟨(reset_clears _ _ _ _).1, (reset_clears _ _ _ _).2.1, (reset_clears _ _ _ _).2.2,
      ?_, ?_, ?_, ?_, ?_, ?_⟩ <;>
    · by_cases h1 : v &&& k.DMA_SETENABLE = 0 <;>
      by_cases h2 : v &&& k.DMA_SETSUPDATE = 0 <;>
      by_cases h3 : v &&& k.DMA_CLRCOMPLETE = 0 <;> simp [h1, h2, h3]
  · have hne : ¬ ((0x150 : Nat) = 0x110) := by decide
    have hne1 : ¬ ((0x150 : Nat) = 0x4100) := by decide
    have hne2 : ¬ ((0x150 : Nat) = 0x4104) := by decide
    have hne3 : ¬ ((0x150 : Nat) = 0x4110) := by decide
    have hne4 : ¬ ((0x150 : Nat) = 0x4114) := by decide
    have hne5 : ¬ ((0x150 : Nat) = 0x4310) := by decide
    simp only [net_writel, hne, hne1, hne2, hne3, hne4, hne5, if_false, if_true, write_rx_csr,
      h, ne_eq, not_false_eq_true]
    refine ⟨(reset_clears _ _ _ _).1, (reset_clears _ _ _ _).2.1, (reset_clears _ _ _ _).2.2,
      ?_, ?_, ?_, ?_, ?_, ?_⟩ <;>
    · by_cases h1 : v &&& k.DMA_SETENABLE = 0 <;>
      by_cases h2 : v &&& k.DMA_SETSUPDATE = 0 <;>
      by_cases h3 : v &&& k.DMA_CLRCOMPLETE = 0 <;> simp [h1, h2, h3]

/-- Claim C7 at a concrete input: RESET together with ENABLE-set written to
both CSRs of a state in which all three flags are set and the TX length is 16. -/
theorem csr_reset_witness :
    (0x110000 &&& next_cube.DMA_RESET ≠ 0) ∧
    (0x110000 &&& next_cube.DMA_SETENABLE ≠ 0) ∧
    (tx_overrun csr_state_full = false) ∧
    (net_writel next_cube sample_mem csr_state_full 0x110 0x110000).1.tx_dma.csr
      &&& next_cube.DMA_COMPLETE = 0 ∧
    (net_writel next_cube sample_mem csr_state_full 0x110 0x110000).1.tx_dma.csr = 0 ∧
    (net_writel next_cube sample_mem csr_state_full 0x150 0x110000).1.rx_dma.csr
      &&& next_cube.DMA_ENABLE = 0 :=
  ⟨by decide, by decide, by decide,
    ((csr_reset next_cube sample_mem csr_state_full 0x110000 (by decide)).1
      (fun _ => by decide)).1,
    by decide,
    (csr_reset next_cube sample_mem csr_state_full 0x110000 (by decide)).2.2.2.1⟩

theorem write_tx_csr_eq_dispatch (k : DmaBits) (mem : Nat → Nat) (s : NextNetState) (v : Nat) :
    write_tx_csr k mem s v = csr_dispatch k mem Channel.tx code_order v s := by
  simp only [write_tx_csr, csr_dispatch, code_order, List.foldl, CsrAction.triggered,
    CsrAction.apply, Channel.csr, Channel.set_csr, tx_enable, decide_eq_true_eq]
  by_cases h1 : v &&& k.DMA_SETENABLE = 0 <;>
  by_cases h2 : v &&& k.DMA_SETSUPDATE = 0 <;>
  by_cases h3 : v &&& k.DMA_CLRCOMPLETE = 0 <;>
  by_cases h4 : v &&& k.DMA_RESET = 0 <;> simp [h1, h2, h3, h4]

theorem write_rx_csr_eq_dispatch (k : DmaBits) (mem : Nat → Nat) (s : NextNetState) (v : Nat) :
    (write_rx_csr k s v, ([] : List Effect)) = csr_dispatch k mem Channel.rx code_order v s := by
  simp only [write_rx_csr, csr_dispatch, code_order, List.foldl, CsrAction.triggered,
    CsrAction.apply, Channel.csr, Channel.set_csr, decide_eq_true_eq]
  by_cases h1 : v &&& k.DMA_SETENABLE = 0 <;>
  by_cases h2 : v &&& k.DMA_SETSUPDATE = 0 <;>
  by_cases h3 : v &&& k.DMA_CLRCOMPLETE = 0 <;>
  by_cases h4 : v &&& k.DMA_RESET = 0 <;> simp [h1, h2, h3, h4]

theorem dispatch_order_irrelevant_without_reset (k : DmaBits) (mem : Nat → Nat) (ch : Channel)
    (s : NextNetState) (v : Nat) (h : v &&& k.DMA_RESET = 0) :
    csr_dispatch k mem ch code_order v s = csr_dispatch k mem ch spec_order v s := by
  simp [csr_dispatch, code_order, spec_order, List.foldl, CsrAction.triggered, h]

theorem net_writel_rx_csr (k : DmaBits) (mem : Nat → Nat) (s : NextNetState) (v : Nat) :
    net_writel k mem s 0x150 v = (write_rx_csr k s v, []) := by
  have hne : ¬ ((0x150 : Nat) = 0x110) := by decide
  have hne1 : ¬ ((0x150 : Nat) = 0x4100) := by decide
  have hne2 : ¬ ((0x150 : Nat) = 0x4104) := by decide
  have hne3 : ¬ ((0x150 : Nat) = 0x4110) := by decide
  have hne4 : ¬ ((0x150 : Nat) = 0x4114) := by decide
  have hne5 : ¬ ((0x150 : Nat) = 0x4310) := by decide
  simp only [net_writel, hne, hne1, hne2, hne3, hne4, hne5, if_false, if_true]

theorem net_writel_tx_csr (k : DmaBits) (mem : Nat → Nat) (s : NextNetState) (v : Nat) :
    net_writel k mem s 0x110 v = write_tx_csr k mem s v := by
  simp only [net_writel, if_true]

/-- Claim C6, as the code has it: a 4-byte write to the TX CSR (0x110) or the RX
CSR (0x150) gives the state and the calls of the reference dispatcher that
applies the triggered actions in the order (1) ENABLE-set action, (2) SUPDATE-set
latch, (3) clear-complete, (4) RESET; this agrees with the order RESET, ENABLE,
SUPDATE, clear-complete whenever the RESET bit is not written; a write with the
RESET bit (with or without SUPDATE-set) leaves `DMA_SUPDATE` clear. -/
theorem csr_action_order (k : DmaBits) (mem : Nat → Nat) (s : NextNetState) (v : Nat) :
    net_writel k mem s 0x110 v = csr_dispatch k mem Channel.tx code_order v s ∧
    net_writel k mem s 0x150 v = csr_dispatch k mem Channel.rx code_order v s ∧
    (v &&& k.DMA_RESET = 0 →
      net_writel k mem s 0x110 v = csr_dispatch k mem Channel.tx spec_order v s ∧
      net_writel k mem s 0x150 v = csr_dispatch k mem Channel.rx spec_order v s) ∧
    (v &&& k.DMA_RESET ≠ 0 →
      (net_writel k mem s 0x110 v).1.tx_dma.csr &&& k.DMA_SUPDATE = 0 ∧
      (net_writel k mem s 0x150 v).1.rx_dma.csr &&& k.DMA_SUPDATE = 0) := by
  have htx := net_writel_tx_csr k mem s v
  have hrx := net_writel_rx_csr k mem s v
  refine ⟨?_, ?_, fun h => ⟨?_, ?_⟩, fun h => ⟨?_, ?_⟩⟩
  · rw [htx]; exact write_tx_csr_eq_dispatch k mem s v
  · rw [hrx]; exact write_rx_csr_eq_dispatch k mem s v
  · rw [htx, write_tx_csr_eq_dispatch]
    exact dispatch_order_irrelevant_without_reset k mem _ s v h
  · rw [hrx, write_rx_csr_eq_dispatch k mem]
    exact dispatch_order_irrelevant_without_reset k mem _ s v h
  · rw [htx]
    simp only [write_tx_csr, h, ne_eq, not_false_eq_true, if_true]
    exact (reset_clears _ _ _ _).2.1
  · rw [hrx]
    simp only [write_rx_csr, h, ne_eq, not_false_eq_true, if_true]
    exact (reset_clears _ _ _ _).2.1

/-- Claim C6 as stated fails: writing RESET together with SUPDATE-set to the TX
CSR of the zero state leaves `DMA_SUPDATE` clear, whereas the dispatcher in the
order RESET, ENABLE-set, SUPDATE-set, clear-complete leaves it set. -/
theorem csr_action_order_counterexample :
    0x120000 &&& next_cube.DMA_RESET ≠ 0 ∧ 0x120000 &&& next_cube.DMA_SETSUPDATE ≠ 0 ∧
    (net_writel next_cube sample_mem NextNetState.zero 0x110 0x120000).1.tx_dma.csr
      &&& next_cube.DMA_SUPDATE = 0 ∧
    (csr_dispatch next_cube sample_mem Channel.tx spec_order 0x120000
      NextNetState.zero).1.tx_dma.csr &&& next_cube.DMA_SUPDATE = next_cube.DMA_SUPDATE ∧
    (net_writel next_cube sample_mem NextNetState.zero 0x110 0x120000).1 ≠
      (csr_dispatch next_cube sample_mem Channel.tx spec_order 0x120000 NextNetState.zero).1 := by
  decide

/-! ## Receive gate -/

theorem mod_256_land_three (v : Nat) : (v % 256) &&& 0x3 = v &&& 0x3 := by
  rw [land_three, land_three]; omega

theorem net_writeb_rx_mode (dflt : List Nat) (s : NextNetState) (v : Nat) :
    net_writeb dflt s 0x6005 v = { s with rx_mode := v % 256 } := by
  simp [net_writeb]

/-- Claim C8: `nextnet_can_rx` is true exactly when `(rx_mode & 0x3) != 0`; it
is a function of the device state alone and yields no new state.  After a byte
write of `v` to the RX mode register (0x6005, directly or through offset 5 of
the first window) it is true exactly when `v & 0x3 != 0`. -/
theorem rx_accept_gate (k : DmaBits) (dflt : List Nat) (mem : Nat → Nat) (s : NextNetState)
    (v : Nat) :
    (nextnet_can_rx s = true ↔ s.rx_mode &&& 0x3 ≠ 0) ∧
    (nextnet_can_rx (net_writeb dflt s 0x6005 v) = true ↔ v &&& 0x3 ≠ 0) ∧
    (∃ s1, nextnet_mmio_writefn1 k dflt mem s 5 v 1 = some (s1, []) ∧
      (nextnet_can_rx s1 = true ↔ v &&& 0x3 ≠ 0)) := by
  refine ⟨by simp [nextnet_can_rx], ?_, ?_⟩
  · rw [net_writeb_rx_mode]
    simp [nextnet_can_rx, mod_256_land_three]
  · refine ⟨net_writeb dflt s 0x6005 (v % 2 ^ 32), ?_, ?_⟩
    · have ha : ((5 + 0x6000) % 2 ^ 64) &&& 0xffff = 0x6005 := by decide
      simp only [nextnet_mmio_writefn1, ha, if_true]
    · rw [net_writeb_rx_mode]
      have h : (v % 2 ^ 32 % 256) &&& 0x3 = v &&& 0x3 := by
        rw [land_three, land_three]; omega
      simp only [nextnet_can_rx, h, decide_eq_true_eq]

/-- Claim C9, as the code has it: when `(rx_mode & 0x3) == 0` the accept
predicate `nextnet_can_rx` is false, so a delivery that goes through the gate
leaves the device state unchanged and makes no bus write and raises no
interrupt; `nextnet_rx` itself does not consult the RX mode and, when entered,
writes the packet and asserts the RX-DMA line. -/
theorem rx_closed_gate (k : DmaBits) (s : NextNetState) (buf : Nat → Nat) (n : Nat)
    (h : s.rx_mode &&& 0x3 = 0) :
    nextnet_can_rx s = false ∧
    network_on_receive k s buf n = (s, []) ∧
    (nextnet_rx k s buf n).effects =
      [Effect.bus_write s.rx_dma.base ((List.range (rx_align n)).map buf),
       Effect.irq RX_I_DMA 6] ∧
    (nextnet_rx k s buf n).state.rx_stat = 0x80 := by
  have hc : nextnet_can_rx s = false := by simp [nextnet_can_rx, h]
  refine ⟨hc, by simp [network_on_receive, hc], rfl, ?_⟩
  by_cases hsu : s.rx_dma.csr &&& k.DMA_SUPDATE = 0 <;> simp [nextnet_rx, hsu]

/-- Claim C9 at a concrete input: the zero state has a closed gate. -/
theorem rx_closed_gate_witness :
    (NextNetState.zero.rx_mode &&& 0x3 = 0) ∧
    network_on_receive next_cube NextNetState.zero sample_mem 10 = (NextNetState.zero, []) :=
  ⟨by decide, (rx_closed_gate next_cube NextNetState.zero sample_mem 10 (by decide)).2.1⟩

/-- Claim C9 as stated fails: on the zero state (RX mode 0, gate closed) a
10-byte `nextnet_rx` changes the state (RX status, saved limit, CSR), writes 32
bytes to the bus and asserts the RX-DMA line. -/
theorem rx_closed_gate_counterexample :
    NextNetState.zero.rx_mode &&& 0x3 = 0 ∧
    (nextnet_rx next_cube NextNetState.zero sample_mem 10).state ≠ NextNetState.zero ∧
    (nextnet_rx next_cube NextNetState.zero sample_mem 10).state.rx_stat = 0x80 ∧
    (nextnet_rx next_cube NextNetState.zero sample_mem 10).state.rx_dma.savedlimit = 32 ∧
    (nextnet_rx next_cube NextNetState.zero sample_mem 10).state.rx_dma.csr = 0x08000000 ∧
    (nextnet_rx next_cube NextNetState.zero sample_mem 10).effects =
      [Effect.bus_write 0 ((List.range 32).map sample_mem), Effect.irq RX_I_DMA 6] := by
  decide

/-! ## Status bytes -/

/-- Claim C10: for a byte value `v` in 0..255, a 1-byte write of `v` to the TX
status register (0x6000) or the RX status register (0x6002) followed by a 1-byte
read of the same offset returns `0x80` when `v = 0xFF` and `v` otherwise,
whatever the status was before; the write changes no other field. -/
theorem status_write_to_clear (dflt : List Nat) (s : NextNetState) (v : Nat) (h : v < 256) :
    net_readb (net_writeb dflt s 0x6000 v) 0x6000 = (if v = 0xFF then 0x80 else v) ∧
    net_writeb dflt s 0x6000 v = { s with tx_stat := if v = 0xFF then 0x80 else v } ∧
    net_readb (net_writeb dflt s 0x6002 v) 0x6002 = (if v = 0xFF then 0x80 else v) ∧
    net_writeb dflt s 0x6002 v = { s with rx_stat := if v = 0xFF then 0x80 else v } := by
  have hv : v % 256 = v := Nat.mod_eq_of_lt h
  by_cases hff : v = 0xFF
  · subst hff
    simp [net_writeb, net_readb, NET_TXSTAT_CLEAR, NET_RXSTAT_CLEAR]
  · have hff1 : ¬ v = 255 := hff
    simp [net_writeb, net_readb, NET_TXSTAT_CLEAR, NET_RXSTAT_CLEAR, hv, hff1]

/-- Claim C10 at concrete inputs: writing `0xFF` and `0x41` to the TX status. -/
theorem status_write_to_clear_witness :
    ((0xFF : Nat) < 256) ∧
    net_readb (net_writeb [] csr_state_full 0x6000 0xFF) 0x6000 = 0x80 ∧
    net_readb (net_writeb [] csr_state_full 0x6002 0x41) 0x6002 = 0x41 :=
  ⟨by decide,
    (status_write_to_clear [] csr_state_full 0xFF (by decide)).1,
    (status_write_to_clear [] csr_state_full 0x41 (by decide)).2.2.1⟩

/-! ## Data registers -/

theorem net_writel_addr (k : DmaBits) (mem : Nat → Nat) (s : NextNetState) (v : Nat) :
    net_writel k mem s 0x4100 v = ({ s with tx_dma := { s.tx_dma with savedbase := v } }, []) ∧
    net_writel k mem s 0x4104 v = ({ s with tx_dma := { s.tx_dma with savedlimit := v } }, []) ∧
    net_writel k mem s 0x4110 v = ({ s with tx_dma := { s.tx_dma with base := v } }, []) ∧
    net_writel k mem s 0x4114 v = ({ s with tx_dma := { s.tx_dma with limit := v } }, []) ∧
    net_writel k mem s 0x4310 v = ({ s with tx_dma := { s.tx_dma with base := v } }, []) ∧
    net_writel k mem s 0x4150 v = ({ s with rx_dma := { s.rx_dma with base := v } }, []) ∧
    net_writel k mem s 0x4154 v = ({ s with rx_dma := { s.rx_dma with limit := v } }, []) ∧
    net_writel k mem s 0x4158 v = ({ s with rx_dma := { s.rx_dma with chainbase := v } }, []) ∧
    net_writel k mem s 0x415c v =
      ({ s with rx_dma := { s.rx_dma with chainlimit := v } }, []) := by
  refine ⟨?_, ?_, ?_, ?_, ?_, ?_, ?_, ?_, ?_⟩ <;> simp [net_writel]

/-- Claim C11, as the code has it: a 4-byte write of `v` followed by a 4-byte
read at the same offset returns `v` at 0x4100, 0x4104 (TX saved base / limit)
and 0x4114 (TX limit).  At 0x4110 and 0x4310 the write stores `v` in the TX
base, at 0x4150, 0x4154, 0x4158, 0x415c in the RX base, limit, chain base and
chain limit; `net_readl` has no case for 0x4110, 0x4150, 0x4154, 0x4158 and
0x415c, so a read there returns 0. -/
theorem data_register_round_trip (k : DmaBits) (mem : Nat → Nat) (s : NextNetState) (v : Nat) :
    net_readl (net_writel k mem s 0x4100 v).1 0x4100 = v ∧
    net_readl (net_writel k mem s 0x4104 v).1 0x4104 = v ∧
    net_readl (net_writel k mem s 0x4114 v).1 0x4114 = v ∧
    (net_writel k mem s 0x4110 v).1.tx_dma.base = v ∧
    (net_writel k mem s 0x4310 v).1.tx_dma.base = v ∧
    (net_writel k mem s 0x4150 v).1.rx_dma.base = v ∧
    (net_writel k mem s 0x4154 v).1.rx_dma.limit = v ∧
    (net_writel k mem s 0x4158 v).1.rx_dma.chainbase = v ∧
    (net_writel k mem s 0x415c v).1.rx_dma.chainlimit = v ∧
    net_readl (net_writel k mem s 0x4110 v).1 0x4110 = 0 ∧
    net_readl (net_writel k mem s 0x4150 v).1 0x4150 = 0 ∧
    net_readl (net_writel k mem s 0x4154 v).1 0x4154 = 0 ∧
    net_readl (net_writel k mem s 0x4158 v).1 0x4158 = 0 ∧
    net_readl (net_writel k mem s 0x415c v).1 0x415c = 0 := by
  obtain ⟨h1, h2, h3, h4, h5, h6, h7, h8, h9⟩ := net_writel_addr k mem s v
  rw [h1, h2, h3, h4, h5, h6, h7, h8, h9]
  simp [net_readl]

/-- Claim C11 as stated fails: on the zero state, writing `0x12345678` to the TX
base (0x4110) or the RX base (0x4150) and reading the same offset back returns
0, and the TX base alias (0x4310) reads back 0 as well. -/
theorem data_register_round_trip_counterexample :
    net_readl (net_writel next_cube sample_mem NextNetState.zero 0x4110 0x12345678).1 0x4110 = 0 ∧
    net_readl (net_writel next_cube sample_mem NextNetState.zero 0x4150 0x12345678).1 0x4150 = 0 ∧
    net_readl (net_writel next_cube sample_mem NextNetState.zero 0x4310 0x12345678).1 0x4310 = 0 ∧
    (net_writel next_cube sample_mem NextNetState.zero 0x4110 0x12345678).1.tx_dma.base =
      0x12345678 := by
  decide

/-! ## MMIO windows -/

theorem land_ffff (x : Nat) : x &&& 0xffff = x % 2 ^ 16 :=
  Nat.and_pow_two_sub_one_eq_mod x 16

theorem mmio1_addr_eq (a : Nat) : mmio1_addr a = (a + 0x6000) &&& 0xFFFF := by
  unfold mmio1_addr
  rw [land_ffff, land_ffff]; omega

theorem mmio2_addr_eq (a : Nat) : mmio2_addr a = (a + 0x110) &&& 0xFFFF := by
  unfold mmio2_addr
  rw [land_ffff, land_ffff]; omega

theorem mmio_readfn1_eq (s : NextNetState) (a size : Nat) :
    nextnet_mmio_readfn1 s a size =
      if size = 1 then some (net_readb s (mmio1_addr a))
      else if size = 2 then some (net_readw s (mmio1_addr a))
      else if size = 4 then some (net_readl s (mmio1_addr a))
      else none := rfl

theorem mmio_readfn2_eq (s : NextNetState) (a size : Nat) :
    nextnet_mmio_readfn2 s a size =
      if size = 1 then some (net_readb s (mmio2_addr a))
      else if size = 2 then some (net_readw s (mmio2_addr a))
      else if size = 4 then some (net_readl s (mmio2_addr a))
      else none := rfl

theorem mmio_writefn1_eq (k : DmaBits) (dflt : List Nat) (mem : Nat → Nat) (s : NextNetState)
    (a v size : Nat) :
    nextnet_mmio_writefn1 k dflt mem s a v size =
      if size = 1 then some (net_writeb dflt s (mmio1_addr a) (v % 2 ^ 32), [])
      else if size = 2 then some (net_writew s (mmio1_addr a) (v % 2 ^ 32), [])
      else if size = 4 then some (net_writel k mem s (mmio1_addr a) (v % 2 ^ 32))
      else none := rfl

theorem mmio_writefn2_eq (k : DmaBits) (dflt : List Nat) (mem : Nat → Nat) (s : NextNetState)
    (a v size : Nat) :
    nextnet_mmio_writefn2 k dflt mem s a v size =
      if size = 1 then some (net_writeb dflt s (mmio2_addr a) (v % 2 ^ 32), [])
      else if size = 2 then some (net_writew s (mmio2_addr a) (v % 2 ^ 32), [])
      else if size = 4 then some (net_writel k mem s (mmio2_addr a) (v % 2 ^ 32))
      else none := rfl

/-- Claim C12: for physical offsets `a1` of the first window and `a2` of the
second with `(a1 + 0x6000) & 0xFFFF = (a2 + 0x110) & 0xFFFF`, every access
width, every value and every state, a write through the first window at `a1`
and a write through the second at `a2` give the same state and the same calls,
and a read through the first window at `a1` returns what a read through the
second at `a2` returns; so after a write through either window, the reads
through both windows agree. -/
theorem window_equivalence (k : DmaBits) (dflt : List Nat) (mem : Nat → Nat) (s : NextNetState)
    (a1 a2 v size : Nat) (h : (a1 + 0x6000) &&& 0xFFFF = (a2 + 0x110) &&& 0xFFFF) :
    nextnet_mmio_writefn1 k dflt mem s a1 v size = nextnet_mmio_writefn2 k dflt mem s a2 v size ∧
    nextnet_mmio_readfn1 s a1 size = nextnet_mmio_readfn2 s a2 size ∧
    (∀ s1 fx rsize, (nextnet_mmio_writefn1 k dflt mem s a1 v size = some (s1, fx) ∨
        nextnet_mmio_writefn2 k dflt mem s a2 v size = some (s1, fx)) →
      nextnet_mmio_readfn1 s1 a1 rsize = nextnet_mmio_readfn2 s1 a2 rsize) := by
  have ha : mmio1_addr a1 = mmio2_addr a2 := by rw [mmio1_addr_eq, mmio2_addr_eq, h]
  refine ⟨?_, ?_, fun s1 _ rsize _ => ?_⟩
  · rw [mmio_writefn1_eq, mmio_writefn2_eq, ha]
  · rw [mmio_readfn1_eq, mmio_readfn2_eq, ha]
  · rw [mmio_readfn1_eq, mmio_readfn2_eq, ha]

/-- Claim C12 at a concrete input: offset `0xA110` of the first window and
offset 0 of the second both decode to the TX CSR. -/
theorem window_equivalence_witness :
    ((0xA110 + 0x6000) &&& 0xFFFF = (0 + 0x110) &&& 0xFFFF) ∧
    nextnet_mmio_writefn1 next_cube [] sample_mem tx_state_small 0xA110 0x10000 4 =
      nextnet_mmio_writefn2 next_cube [] sample_mem tx_state_small 0 0x10000 4 ∧
    nextnet_mmio_readfn1 csr_state_full 0xA110 4 = some 0x0B000000 :=
  ⟨by decide,
    (window_equivalence next_cube [] sample_mem tx_state_small 0xA110 0 0x10000 4
      (by decide)).1,
    by decide⟩

/-- Claim C13: at a 1-byte offset outside 0x6000-0x6006 and 0x6008-0x600d, and
at a 4-byte offset outside the thirteen 4-byte offsets of the register map, a
read returns 0 and a write of any value leaves the whole device state unchanged
and makes no bus access, network send or interrupt; every 2-byte read returns 0
and every 2-byte write does nothing, at every offset.  The same holds through
both windows. -/
theorem unmapped_access_inert (k : DmaBits) (dflt : List Nat) (mem : Nat → Nat)
    (s : NextNetState) (addr v : Nat) :
    (unmapped_byte addr → net_readb s addr = 0 ∧ net_writeb dflt s addr v = s) ∧
    (unmapped_long addr → net_readl s addr = 0 ∧ net_writel k mem s addr v = (s, [])) ∧
    (net_readw s addr = 0 ∧ net_writew s addr v = s) ∧
    (unmapped_byte (mmio1_addr addr) →
      nextnet_mmio_readfn1 s addr 1 = some 0 ∧
      nextnet_mmio_writefn1 k dflt mem s addr v 1 = some (s, [])) ∧
    (unmapped_byte (mmio2_addr addr) →
      nextnet_mmio_readfn2 s addr 1 = some 0 ∧
      nextnet_mmio_writefn2 k dflt mem s addr v 1 = some (s, [])) ∧
    (unmapped_long (mmio1_addr addr) →
      nextnet_mmio_readfn1 s addr 4 = some 0 ∧
      nextnet_mmio_writefn1 k dflt mem s addr v 4 = some (s, [])) ∧
    (unmapped_long (mmio2_addr addr) →
      nextnet_mmio_readfn2 s addr 4 = some 0 ∧
      nextnet_mmio_writefn2 k dflt mem s addr v 4 = some (s, [])) ∧
    (nextnet_mmio_readfn1 s addr 2 = some 0 ∧
      nextnet_mmio_writefn1 k dflt mem s addr v 2 = some (s, []) ∧
      nextnet_mmio_readfn2 s addr 2 = some 0 ∧
      nextnet_mmio_writefn2 k dflt mem s addr v 2 = some (s, [])) := by
  have hb : ∀ a w, unmapped_byte a → net_readb s a = 0 ∧ net_writeb dflt s a w = s := by
    intro a w h
    obtain ⟨h1, h2⟩ := h
    have e0 : a ≠ 0x6000 := by omega
    have e1 : a ≠ 0x6001 := by omega
    have e2 : a ≠ 0x6002 := by omega
    have e3 : a ≠ 0x6003 := by omega
    have e4 : a ≠ 0x6004 := by omega
    have e5 : a ≠ 0x6005 := by omega
    have e6 : a ≠ 0x6006 := by omega
    have e8 : a ≠ 0x6008 := by omega
    have e9 : a ≠ 0x6009 := by omega
    have ea : a ≠ 0x600a := by omega
    have eb : a ≠ 0x600b := by omega
    have ec : a ≠ 0x600c := by omega
    have ed : a ≠ 0x600d := by omega
    constructor
    · simp [net_readb, e0, e1, e2, e3, e4, e5, e6]
    · simp [net_writeb, e0, e1, e2, e3, e4, e5, e6, e8, e9, ea, eb, ec, ed]
  have hl : ∀ a w, unmapped_long a → net_readl s a = 0 ∧ net_writel k mem s a w = (s, []) := by
    intro a w h
    simp only [unmapped_long, long_registers, List.mem_cons, List.mem_singleton, not_or,
      List.mem_nil_iff, or_false] at h
    obtain ⟨h1, h2, h3, h4, h5, h6, h7, h8, h9, h10, h11, h12, h13⟩ := h
    constructor
    · simp [net_readl, h1, h2, h3, h4, h6, h7, h8, h9]
    · simp [net_writel, h1, h2, h3, h4, h5, h6, h7, h10, h11, h12, h13]
  refine ⟨hb addr v, hl addr v, ⟨rfl, rfl⟩, fun h => ?_, fun h => ?_, fun h => ?_, fun h => ?_,
    rfl, rfl, rfl, rfl⟩
  · obtain ⟨hr, hw⟩ := hb _ (v % 2 ^ 32) h
    rw [mmio_readfn1_eq, mmio_writefn1_eq, hr, hw]
    exact ⟨rfl, rfl⟩
  · obtain ⟨hr, hw⟩ := hb _ (v % 2 ^ 32) h
    rw [mmio_readfn2_eq, mmio_writefn2_eq, hr, hw]
    exact ⟨rfl, rfl⟩
  · obtain ⟨hr, hw⟩ := hl _ (v % 2 ^ 32) h
    rw [mmio_readfn1_eq, mmio_writefn1_eq, hr, hw]
    exact ⟨rfl, rfl⟩
  · obtain ⟨hr, hw⟩ := hl _ (v % 2 ^ 32) h
    rw [mmio_readfn2_eq, mmio_writefn2_eq, hr, hw]
    exact ⟨rfl, rfl⟩

/-! ## Transmit length hazards -/

/-- Claim C14 fails on the code: with TX base `0x1000` and TX limit `0x2000` the
computed length is 4096, more than the 1600 bytes of the local array, and the
ENABLE-set write to the TX CSR is not rejected: it asks the bus for all 4096
bytes, hands 4096 bytes to the network, sets COMPLETE and SUPDATE in the TX CSR,
sets the TX status to `0x80` and asserts the TX-DMA line. -/
theorem tx_oversized_not_rejected :
    tx_len tx_state_oversized = 4096 ∧
    TX_BUF_SIZE < tx_len tx_state_oversized ∧
    tx_overrun tx_state_oversized = true ∧
    0x10000 &&& next_cube.DMA_SETENABLE ≠ 0 ∧
    (net_writel next_cube sample_mem tx_state_oversized 0x110 0x10000).2 =
      [Effect.bus_read 0x1000 4096, Effect.send (phys_bytes sample_mem 0x1000 4096),
       Effect.irq TX_I_DMA 3] ∧
    (phys_bytes sample_mem 0x1000 4096).length = 4096 ∧
    (net_writel next_cube sample_mem tx_state_oversized 0x110 0x10000).1 ≠ tx_state_oversized ∧
    (net_writel next_cube sample_mem tx_state_oversized 0x110 0x10000).1.tx_dma.csr =
      0x0A000000 ∧
    (net_writel next_cube sample_mem tx_state_oversized 0x110 0x10000).1.tx_stat = 0x80 := by
  have hl : tx_len tx_state_oversized = 4096 := by decide
  refine ⟨hl, by decide, by decide, by decide, ?_, phys_bytes_length _ _ _, by decide,
    by decide, by decide⟩
  rw [net_writel_tx_csr, write_tx_csr_effects next_cube sample_mem tx_state_oversized 0x10000
    (by decide), hl]
  rfl

/-- Claim C15 fails on the code: with the TX limit below the TX base the
computed length is the difference wrapped modulo `2^32`, not zero.  With base
`0x1010` and limit `0x1000` the length is `0xFFFFFFF0` and the bus is asked for
that many bytes; with base `0xFFFFFFFF` and limit 0 the length is 1, and one
byte is read from `0xFFFFFFFF` and sent. -/
theorem tx_inverted_length_wraps :
    (0xFFFFFFF &&& tx_state_inverted.tx_dma.limit) < tx_state_inverted.tx_dma.base ∧
    tx_len tx_state_inverted = 0xFFFFFFF0 ∧
    (net_writel next_cube sample_mem tx_state_inverted 0x110 0x10000).2 =
      [Effect.bus_read 0x1010 0xFFFFFFF0, Effect.send (phys_bytes sample_mem 0x1010 0xFFFFFFF0),
       Effect.irq TX_I_DMA 3] ∧
    (0xFFFFFFF &&& tx_state_inverted_top.tx_dma.limit) < tx_state_inverted_top.tx_dma.base ∧
    tx_len tx_state_inverted_top = 1 ∧
    (net_writel next_cube sample_mem tx_state_inverted_top 0x110 0x10000).2 =
      [Effect.bus_read 0xFFFFFFFF 1, Effect.send [255], Effect.irq TX_I_DMA 3] := by
  have hl : tx_len tx_state_inverted = 0xFFFFFFF0 := by decide
  refine ⟨by decide, hl, ?_, by decide, by decide, by decide⟩
  rw [net_writel_tx_csr, write_tx_csr_effects next_cube sample_mem tx_state_inverted 0x10000
    (by decide), hl]
  rfl

/-! ## Unrecognised CSR bits -/

theorem write_tx_csr_congr (k : DmaBits) (mem : Nat → Nat) (s : NextNetState) (v1 v2 : Nat)
    (h1 : v1 &&& k.DMA_SETENABLE = v2 &&& k.DMA_SETENABLE)
    (h2 : v1 &&& k.DMA_SETSUPDATE = v2 &&& k.DMA_SETSUPDATE)
    (h3 : v1 &&& k.DMA_CLRCOMPLETE = v2 &&& k.DMA_CLRCOMPLETE)
    (h4 : v1 &&& k.DMA_RESET = v2 &&& k.DMA_RESET) :
    write_tx_csr k mem s v1 = write_tx_csr k mem s v2 := by
  simp only [write_tx_csr, h1, h2, h3, h4]

theorem write_rx_csr_congr (k : DmaBits) (s : NextNetState) (v1 v2 : Nat)
    (h1 : v1 &&& k.DMA_SETENABLE = v2 &&& k.DMA_SETENABLE)
    (h2 : v1 &&& k.DMA_SETSUPDATE = v2 &&& k.DMA_SETSUPDATE)
    (h3 : v1 &&& k.DMA_CLRCOMPLETE = v2 &&& k.DMA_CLRCOMPLETE)
    (h4 : v1 &&& k.DMA_RESET = v2 &&& k.DMA_RESET) :
    write_rx_csr k s v1 = write_rx_csr k s v2 := by
  simp only [write_rx_csr, h1, h2, h3, h4]

/-- Claim C16: a 4-byte write to the TX CSR (0x110) or the RX CSR (0x150) of a
value in which none of the four action bits `DMA_SETENABLE`, `DMA_SETSUPDATE`,
`DMA_CLRCOMPLETE`, `DMA_RESET` is set leaves the whole device state unchanged
and makes no bus access, network send or interrupt; and two written values that
agree on those four bits give identical states and calls. -/
theorem csr_unrecognised_bits (k : DmaBits) (mem : Nat → Nat) (s : NextNetState) (v1 v2 : Nat) :
    (v1 &&& k.DMA_SETENABLE = 0 ∧ v1 &&& k.DMA_SETSUPDATE = 0 ∧
      v1 &&& k.DMA_CLRCOMPLETE = 0 ∧ v1 &&& k.DMA_RESET = 0 →
      net_writel k mem s 0x110 v1 = (s, []) ∧ net_writel k mem s 0x150 v1 = (s, [])) ∧
    (v1 &&& k.DMA_SETENABLE = v2 &&& k.DMA_SETENABLE ∧
      v1 &&& k.DMA_SETSUPDATE = v2 &&& k.DMA_SETSUPDATE ∧
      v1 &&& k.DMA_CLRCOMPLETE = v2 &&& k.DMA_CLRCOMPLETE ∧
      v1 &&& k.DMA_RESET = v2 &&& k.DMA_RESET →
      net_writel k mem s 0x110 v1 = net_writel k mem s 0x110 v2 ∧
      net_writel k mem s 0x150 v1 = net_writel k mem s 0x150 v2) := by
  constructor
  · rintro ⟨h1, h2, h3, h4⟩
    rw [net_writel_tx_csr, net_writel_rx_csr]
    simp [write_tx_csr, write_rx_csr, h1, h2, h3, h4]
  · rintro ⟨h1, h2, h3, h4⟩
    rw [net_writel_tx_csr, net_writel_tx_csr, net_writel_rx_csr, net_writel_rx_csr,
      write_tx_csr_congr k mem s v1 v2 h1 h2 h3 h4, write_rx_csr_congr k s v1 v2 h1 h2 h3 h4]
    exact ⟨rfl, rfl⟩

/-! ## MAC address -/

/-- Claim C17: for a state whose MAC array has its six bytes, `i` in 0..5 and a
byte value `v`, a 1-byte write of `v` at offset `0x6008 + i` computes the index
`(offset & 0xF) - 8 = i` and stores `v` in MAC byte `i`; the other five MAC bytes
and every other field are unchanged.  For `i = 5` this is under the condition
that the resulting address is not all-zero. -/
theorem mac_byte_write (dflt : List Nat) (s : NextNetState) (i v : Nat)
    (hlen : s.mac.length = 6) (hi : i < 6) (hv : v < 256)
    (hnz : i = 5 → s.mac.set 5 v ≠ [0, 0, 0, 0, 0, 0]) :
    ((0x6008 + i) &&& 0xF) - 8 = i ∧
    net_writeb dflt s (0x6008 + i) v = { s with mac := s.mac.set i v } ∧
    (net_writeb dflt s (0x6008 + i) v).mac[i]? = some v ∧
    (∀ j, j ≠ i → (net_writeb dflt s (0x6008 + i) v).mac[j]? = s.mac[j]?) ∧
    (net_writeb dflt s (0x6008 + i) v).mac.length = 6 := by
  have hv1 : v % 256 = v := Nat.mod_eq_of_lt hv
  have hidx : ((0x6008 + i) &&& 0xF) - 8 = i := by
    interval_cases i <;> decide
  have hw : net_writeb dflt s (0x6008 + i) v = { s with mac := s.mac.set i v } := by
    have e0 : ((0x6008 : Nat) &&& 0xF) - 8 = 0 := by decide
    have e1 : ((0x6009 : Nat) &&& 0xF) - 8 = 1 := by decide
    have e2 : ((0x600a : Nat) &&& 0xF) - 8 = 2 := by decide
    have e3 : ((0x600b : Nat) &&& 0xF) - 8 = 3 := by decide
    have e4 : ((0x600c : Nat) &&& 0xF) - 8 = 4 := by decide
    have e5 : ((0x600d : Nat) &&& 0xF) - 8 = 5 := by decide
    interval_cases i
    · simp [net_writeb, hv1, e0]
    · simp [net_writeb, hv1, e1]
    · simp [net_writeb, hv1, e2]
    · simp [net_writeb, hv1, e3]
    · simp [net_writeb, hv1, e4]
    · have h5 := hnz rfl
      simp [net_writeb, hv1, qemu_macaddr_default_if_unset, e5, h5]
  refine ⟨hidx, hw, ?_, ?_, ?_⟩
  · rw [hw]
    exact List.getElem?_set_self (by rw [hlen]; exact hi)
  · intro j hj
    rw [hw]
    exact List.getElem?_set_ne (Ne.symm hj)
  · rw [hw]
    simp [hlen]

/-- Claim C17 at concrete inputs: writing `0xAB` to MAC byte 2 and to MAC byte 5
of the address set at realize time. -/
theorem mac_byte_write_witness :
    (realized_state.mac.length = 6) ∧ ((2 : Nat) < 6) ∧ ((0xAB : Nat) < 256) ∧
    (net_writeb [] realized_state 0x600a 0xAB).mac = [0x00, 0x00, 0xAB, 0x00, 0xf3, 0x02] ∧
    (net_writeb [] realized_state (0x6008 + 5) 0xAB).mac[5]? = some 0xAB :=
  ⟨by decide, by decide, by decide, by
    have h := (mac_byte_write [] realized_state 2 0xAB (by decide) (by decide) (by decide)
      (by decide)).2.1
    rw [show (0x600a : Nat) = 0x6008 + 2 from rfl, h]; decide,
    (mac_byte_write [] realized_state 5 0xAB (by decide) (by decide) (by decide)
      (by decide)).2.2.1⟩

/-! ## Window coverage -/

theorem mmio1_addr_of_lt (a : Nat) (h : a < REGMEM1_SIZE) : mmio1_addr a = a + 0x6000 := by
  unfold REGMEM1_SIZE at h
  rw [mmio1_addr_eq, land_ffff]; omega

theorem mmio2_addr_of_lt (a : Nat) (h : a < REGMEM2_SIZE) : mmio2_addr a = a + 0x110 := by
  unfold REGMEM2_SIZE at h
  rw [mmio2_addr_eq, land_ffff]; omega

/-- Claim C18: a physical offset below `0x1000` of the first window decodes to a
logical offset in `0x6000..0x6FFF`, one below `0x4400` of the second window to a
logical offset in `0x0110..0x450F`; no offset is decoded by both windows within
their sizes; every 1-byte register offset (`0x6000..0x600d`) is reached through
the first window and not the second, and every 4-byte register offset (the
listed ones and all of `0x4100..0x415c`) through the second and not the first.
The accessors of each window dispatch on exactly that logical offset. -/
theorem window_coverage :
    (∀ a1, a1 < REGMEM1_SIZE →
      mmio1_addr a1 = (a1 + 0x6000) &&& 0xFFFF ∧ 0x6000 ≤ mmio1_addr a1 ∧
      mmio1_addr a1 ≤ 0x6FFF) ∧
    (∀ a2, a2 < REGMEM2_SIZE →
      mmio2_addr a2 = (a2 + 0x110) &&& 0xFFFF ∧ 0x0110 ≤ mmio2_addr a2 ∧
      mmio2_addr a2 ≤ 0x450F) ∧
    (∀ a1 a2, a1 < REGMEM1_SIZE → a2 < REGMEM2_SIZE → mmio1_addr a1 ≠ mmio2_addr a2) ∧
    (∀ r, 0x6000 ≤ r ∧ r ≤ 0x600d →
      (∃ a1, a1 < REGMEM1_SIZE ∧ mmio1_addr a1 = r) ∧
      ¬ ∃ a2, a2 < REGMEM2_SIZE ∧ mmio2_addr a2 = r) ∧
    (∀ r, r ∈ long_registers ∨ (0x4100 ≤ r ∧ r ≤ 0x415c) →
      (∃ a2, a2 < REGMEM2_SIZE ∧ mmio2_addr a2 = r) ∧
      ¬ ∃ a1, a1 < REGMEM1_SIZE ∧ mmio1_addr a1 = r) ∧
    (∀ s a, nextnet_mmio_readfn1 s a 1 = some (net_readb s (mmio1_addr a)) ∧
      nextnet_mmio_readfn2 s a 4 = some (net_readl s (mmio2_addr a))) := by
  refine ⟨fun a1 h => ?_, fun a2 h => ?_, fun a1 a2 h1 h2 => ?_, fun r hr => ⟨?_, ?_⟩,
    fun r hr => ⟨?_, ?_⟩, fun s a => ⟨rfl, rfl⟩⟩
  · have e := mmio1_addr_of_lt a1 h
    refine ⟨mmio1_addr_eq a1, ?_, ?_⟩ <;> (unfold REGMEM1_SIZE at h; omega)
  · have e := mmio2_addr_of_lt a2 h
    refine ⟨mmio2_addr_eq a2, ?_, ?_⟩ <;> (unfold REGMEM2_SIZE at h; omega)
  · rw [mmio1_addr_of_lt a1 h1, mmio2_addr_of_lt a2 h2]
    unfold REGMEM2_SIZE at h2; omega
  · have hlt : r - 0x6000 < REGMEM1_SIZE := by unfold REGMEM1_SIZE; omega
    exact ⟨r - 0x6000, hlt, by rw [mmio1_addr_of_lt _ hlt]; omega⟩
  · rintro ⟨a2, h2, e⟩
    rw [mmio2_addr_of_lt a2 h2] at e
    unfold REGMEM2_SIZE at h2; omega
  · have hrange : 0x110 ≤ r ∧ r ≤ 0x450F := by
      rcases hr with hr | hr
      · simp only [long_registers, List.mem_cons, List.mem_singleton, List.mem_nil_iff,
          or_false] at hr
        omega
      · omega
    have hlt : r - 0x110 < REGMEM2_SIZE := by unfold REGMEM2_SIZE; omega
    exact ⟨r - 0x110, hlt, by rw [mmio2_addr_of_lt _ hlt]; omega⟩
  · have hrange : 0x110 ≤ r ∧ r ≤ 0x450F := by
      rcases hr with hr | hr
      · simp only [long_registers, List.mem_cons, List.mem_singleton, List.mem_nil_iff,
          or_false] at hr
        omega
      · omega
    rintro ⟨a1, h1, e⟩
    rw [mmio1_addr_of_lt a1 h1] at e
    omega

/-! ## CSR bit invariant -/

theorem within_lor (a b m : Nat) (ha : a &&& m = a) (hb : b &&& m = b) :
    (a ||| b) &&& m = a ||| b := by
  apply Nat.eq_of_testBit_eq; intro i
  have hai := congrArg (fun y => y.testBit i) ha
  have hbi := congrArg (fun y => y.testBit i) hb
  simp only [Nat.testBit_land] at hai hbi
  simp only [Nat.testBit_land, Nat.testBit_lor]
  revert hai hbi
  cases a.testBit i <;> cases b.testBit i <;> cases m.testBit i <;> simp

theorem within_land (a x m : Nat) (ha : a &&& m = a) : (a &&& x) &&& m = a &&& x := by
  apply Nat.eq_of_testBit_eq; intro i
  have hai := congrArg (fun y => y.testBit i) ha
  simp only [Nat.testBit_land] at hai
  simp only [Nat.testBit_land]
  revert hai
  cases a.testBit i <;> cases x.testBit i <;> cases m.testBit i <;> simp

theorem within_disjoint (a m x : Nat) (ha : a &&& m = a) (hx : x &&& m = 0) : a &&& x = 0 := by
  apply Nat.eq_of_testBit_eq; intro i
  have hai := congrArg (fun y => y.testBit i) ha
  have hxi := congrArg (fun y => y.testBit i) hx
  simp only [Nat.testBit_land, Nat.zero_testBit] at hai hxi
  simp only [Nat.testBit_land, Nat.zero_testBit]
  revert hai hxi
  cases a.testBit i <;> cases x.testBit i <;> cases m.testBit i <;> simp

theorem mask2_first (u c : Nat) : u &&& (u ||| c) = u := by
  apply Nat.eq_of_testBit_eq; intro i
  simp only [Nat.testBit_land, Nat.testBit_lor]
  cases u.testBit i <;> cases c.testBit i <;> rfl

theorem mask2_second (u c : Nat) : c &&& (u ||| c) = c := by
  apply Nat.eq_of_testBit_eq; intro i
  simp only [Nat.testBit_land, Nat.testBit_lor]
  cases u.testBit i <;> cases c.testBit i <;> rfl

theorem mask2_swap (u c : Nat) : (c ||| u) &&& (u ||| c) = c ||| u := by
  apply Nat.eq_of_testBit_eq; intro i
  simp only [Nat.testBit_land, Nat.testBit_lor]
  cases u.testBit i <;> cases c.testBit i <;> rfl

theorem write_tx_csr_rx (k : DmaBits) (mem : Nat → Nat) (s : NextNetState) (v : Nat) :
    (write_tx_csr k mem s v).1.rx_dma = s.rx_dma := by
  by_cases h1 : v &&& k.DMA_SETENABLE = 0 <;>
  by_cases h2 : v &&& k.DMA_SETSUPDATE = 0 <;>
  by_cases h3 : v &&& k.DMA_CLRCOMPLETE = 0 <;>
  by_cases h4 : v &&& k.DMA_RESET = 0 <;> simp [write_tx_csr, tx_enable, h1, h2, h3, h4]

theorem write_rx_csr_tx (k : DmaBits) (s : NextNetState) (v : Nat) :
    (write_rx_csr k s v).tx_dma = s.tx_dma := by
  by_cases h1 : v &&& k.DMA_SETENABLE = 0 <;>
  by_cases h2 : v &&& k.DMA_SETSUPDATE = 0 <;>
  by_cases h3 : v &&& k.DMA_CLRCOMPLETE = 0 <;>
  by_cases h4 : v &&& k.DMA_RESET = 0 <;> simp [write_rx_csr, h1, h2, h3, h4]

theorem write_tx_csr_within (k : DmaBits) (mem : Nat → Nat) (s : NextNetState) (v : Nat)
    (h : s.tx_dma.csr &&& (k.DMA_SUPDATE ||| k.DMA_COMPLETE) = s.tx_dma.csr) :
    (write_tx_csr k mem s v).1.tx_dma.csr &&& (k.DMA_SUPDATE ||| k.DMA_COMPLETE) =
      (write_tx_csr k mem s v).1.tx_dma.csr := by
  have hu := mask2_first k.DMA_SUPDATE k.DMA_COMPLETE
  have hcu := mask2_swap k.DMA_SUPDATE k.DMA_COMPLETE
  by_cases h1 : v &&& k.DMA_SETENABLE = 0 <;>
  by_cases h2 : v &&& k.DMA_SETSUPDATE = 0 <;>
  by_cases h3 : v &&& k.DMA_CLRCOMPLETE = 0 <;>
  by_cases h4 : v &&& k.DMA_RESET = 0 <;>
  simp only [write_tx_csr, tx_enable, h1, h2, h3, h4, ne_eq, not_true_eq_false,
    not_false_eq_true, if_true, if_false] <;>
  repeat (first
    | exact h
    | exact hu
    | exact hcu
    | apply within_land
    | apply within_lor)

theorem write_rx_csr_within (k : DmaBits) (s : NextNetState) (v : Nat)
    (h : s.rx_dma.csr &&& (k.DMA_ENABLE ||| k.DMA_SUPDATE ||| k.DMA_COMPLETE) = s.rx_dma.csr) :
    (write_rx_csr k s v).rx_dma.csr &&& (k.DMA_ENABLE ||| k.DMA_SUPDATE ||| k.DMA_COMPLETE) =
      (write_rx_csr k s v).rx_dma.csr := by
  have he := land_lor3_first k.DMA_ENABLE k.DMA_SUPDATE k.DMA_COMPLETE
  have hu := land_lor3_second k.DMA_ENABLE k.DMA_SUPDATE k.DMA_COMPLETE
  by_cases h1 : v &&& k.DMA_SETENABLE = 0 <;>
  by_cases h2 : v &&& k.DMA_SETSUPDATE = 0 <;>
  by_cases h3 : v &&& k.DMA_CLRCOMPLETE = 0 <;>
  by_cases h4 : v &&& k.DMA_RESET = 0 <;>
  simp only [write_rx_csr, h1, h2, h3, h4, ne_eq, not_true_eq_false,
    not_false_eq_true, if_true, if_false] <;>
  repeat (first
    | exact h
    | exact he
    | exact hu
    | apply within_land
    | apply within_lor)

theorem net_writeb_dma (dflt : List Nat) (s : NextNetState) (addr v : Nat) :
    (net_writeb dflt s addr v).tx_dma = s.tx_dma ∧ (net_writeb dflt s addr v).rx_dma = s.rx_dma := by
  unfold net_writeb
  repeat' split
  all_goals exact ⟨rfl, rfl⟩

theorem net_writel_other_csr (k : DmaBits) (mem : Nat → Nat) (s : NextNetState) (addr v : Nat)
    (h1 : addr ≠ 0x110) (h2 : addr ≠ 0x150) :
    (net_writel k mem s addr v).1.tx_dma.csr = s.tx_dma.csr ∧
    (net_writel k mem s addr v).1.rx_dma.csr = s.rx_dma.csr := by
  unfold net_writel
  rw [if_neg h1]
  repeat' split
  all_goals exact ⟨rfl, rfl⟩

theorem net_writel_csr_invariant (k : DmaBits) (mem : Nat → Nat) (s : NextNetState)
    (addr v : Nat) (h : csr_invariant k s) : csr_invariant k (net_writel k mem s addr v).1 := by
  obtain ⟨hrx, htx⟩ := h
  by_cases h1 : addr = 0x110
  · subst h1
    rw [net_writel_tx_csr]
    exact ⟨by rw [write_tx_csr_rx]; exact hrx, write_tx_csr_within k mem s v htx⟩
  · by_cases h2 : addr = 0x150
    · subst h2
      rw [net_writel_rx_csr]
      exact ⟨write_rx_csr_within k s v hrx, by
        show (write_rx_csr k s v).tx_dma.csr &&& _ = (write_rx_csr k s v).tx_dma.csr
        rw [write_rx_csr_tx]; exact htx⟩
    · obtain ⟨e1, e2⟩ := net_writel_other_csr k mem s addr v h1 h2
      unfold csr_invariant
      rw [e1, e2]
      exact ⟨hrx, htx⟩

theorem nextnet_rx_csr (k : DmaBits) (s : NextNetState) (buf : Nat → Nat) (n : Nat) :
    (nextnet_rx k s buf n).state.rx_dma.csr = s.rx_dma.csr ||| k.DMA_COMPLETE ∧
    (nextnet_rx k s buf n).state.tx_dma = s.tx_dma := by
  by_cases hsu : s.rx_dma.csr &&& k.DMA_SUPDATE = 0 <;> simp [nextnet_rx, hsu]

theorem nextnet_rx_csr_invariant (k : DmaBits) (s : NextNetState) (buf : Nat → Nat) (n : Nat)
    (h : csr_invariant k s) : csr_invariant k (nextnet_rx k s buf n).state := by
  obtain ⟨hrx, htx⟩ := h
  obtain ⟨h1, h2⟩ := nextnet_rx_csr k s buf n
  refine ⟨?_, by rw [h2]; exact htx⟩
  rw [h1]
  exact within_lor _ _ _ hrx (land_lor3_third k.DMA_ENABLE k.DMA_SUPDATE k.DMA_COMPLETE)

theorem step_csr_invariant (k : DmaBits) (dflt : List Nat) (s s1 : NextNetState) (e : Event)
    (h : csr_invariant k s) (hs : step k dflt s e = some s1) : csr_invariant k s1 := by
  have hb : ∀ a w, csr_invariant k (net_writeb dflt s a w) := fun a w => by
    obtain ⟨h1, h2⟩ := net_writeb_dma dflt s a w
    unfold csr_invariant
    rw [h1, h2]; exact h
  cases e with
  | write1 mem addr value size =>
    simp only [step, mmio_writefn1_eq] at hs
    split_ifs at hs
    · simp only [Option.map_some', Option.some.injEq] at hs
      rw [← hs]; exact hb _ _
    · simp only [Option.map_some', Option.some.injEq, net_writew] at hs
      rw [← hs]; exact h
    · simp only [Option.map_some', Option.some.injEq] at hs
      rw [← hs]; exact net_writel_csr_invariant k mem s _ _ h
    · simp at hs
  | write2 mem addr value size =>
    simp only [step, mmio_writefn2_eq] at hs
    split_ifs at hs
    · simp only [Option.map_some', Option.some.injEq] at hs
      rw [← hs]; exact hb _ _
    · simp only [Option.map_some', Option.some.injEq, net_writew] at hs
      rw [← hs]; exact h
    · simp only [Option.map_some', Option.some.injEq] at hs
      rw [← hs]; exact net_writel_csr_invariant k mem s _ _ h
    · simp at hs
  | rx buf n =>
    simp only [step, Option.some.injEq] at hs
    rw [← hs]; exact nextnet_rx_csr_invariant k s buf n h

theorem step_total (k : DmaBits) (dflt : List Nat) (s : NextNetState) (e : Event)
    (hv : e.valid) : ∃ s1, step k dflt s e = some s1 := by
  cases e with
  | write1 mem addr value size =>
    simp only [Event.valid] at hv
    rcases hv with rfl | rfl | rfl <;> exact ⟨_, rfl⟩
  | write2 mem addr value size =>
    simp only [Event.valid] at hv
    rcases hv with rfl | rfl | rfl <;> exact ⟨_, rfl⟩
  | rx buf n => exact ⟨_, rfl⟩

theorem run_csr_invariant (k : DmaBits) (dflt : List Nat) (evs : List Event) :
    ∀ s, csr_invariant k s → (∀ e ∈ evs, e.valid) →
      ∃ s1, run k dflt s evs = some s1 ∧ csr_invariant k s1 := by
  induction evs with
  | nil => intro s h _; exact ⟨s, rfl, h⟩
  | cons e es ih =>
    intro s h hv
    obtain ⟨s1, hs1⟩ := step_total k dflt s e (hv e (List.mem_cons_self e es))
    obtain ⟨s2, hs2, hinv⟩ := ih s1 (step_csr_invariant k dflt s s1 e h hs1)
      (fun e1 he1 => hv e1 (List.mem_cons_of_mem e he1))
    refine ⟨s2, ?_, hinv⟩
    simp only [run, hs1]
    exact hs2

theorem zero_csr_invariant (k : DmaBits) : csr_invariant k NextNetState.zero := by
  unfold csr_invariant
  simp [NextNetState.zero, NextDMA.zero]

/-- Claim C19: starting from the zero-initialised device state, every finite
sequence of register writes (widths 1, 2, 4, any offset and value, through
either window) and RX deliveries in which no ENABLE-set write to the TX CSR
finds a TX length above the 1600-byte transfer array runs to a state in which
the RX CSR has no bit outside `DMA_ENABLE | DMA_SUPDATE | DMA_COMPLETE` and the
TX CSR no bit outside `DMA_SUPDATE | DMA_COMPLETE`.  Hence, when `DMA_ENABLE`
shares no bit with `DMA_SUPDATE | DMA_COMPLETE`, the TX CSR never has
`DMA_ENABLE` set, and a mask that shares no bit with the three status masks (as
the written action bits do) is never stored in either CSR. -/
theorem csr_bit_invariant (k : DmaBits) (dflt : List Nat) (evs : List Event)
    (hv : ∀ e ∈ evs, e.valid) (_hfit : run_fits k dflt NextNetState.zero evs = true) :
    ∃ s, run k dflt NextNetState.zero evs = some s ∧
      s.rx_dma.csr &&& (k.DMA_ENABLE ||| k.DMA_SUPDATE ||| k.DMA_COMPLETE) = s.rx_dma.csr ∧
      s.tx_dma.csr &&& (k.DMA_SUPDATE ||| k.DMA_COMPLETE) = s.tx_dma.csr ∧
      (k.DMA_ENABLE &&& (k.DMA_SUPDATE ||| k.DMA_COMPLETE) = 0 →
        s.tx_dma.csr &&& k.DMA_ENABLE = 0) ∧
      (∀ x, x &&& (k.DMA_ENABLE ||| k.DMA_SUPDATE ||| k.DMA_COMPLETE) = 0 →
        s.rx_dma.csr &&& x = 0 ∧ s.tx_dma.csr &&& x = 0) := by
  obtain ⟨s, hs, hrx, htx⟩ := run_csr_invariant k dflt evs _ (zero_csr_invariant k) hv
  refine ⟨s, hs, hrx, htx, fun hd => within_disjoint _ _ _ htx hd, fun x hx => ⟨?_, ?_⟩⟩
  · exact within_disjoint _ _ _ hrx hx
  · have hx2 : x &&& (k.DMA_SUPDATE ||| k.DMA_COMPLETE) = 0 := by
      apply Nat.eq_of_testBit_eq; intro i
      have hxi := congrArg (fun y => y.testBit i) hx
      simp only [Nat.testBit_land, Nat.testBit_lor, Nat.zero_testBit] at hxi
      simp only [Nat.testBit_land, Nat.testBit_lor, Nat.zero_testBit]
      revert hxi
      cases x.testBit i <;> cases k.DMA_ENABLE.testBit i <;> cases k.DMA_SUPDATE.testBit i <;>
        cases k.DMA_COMPLETE.testBit i <;> simp
    exact within_disjoint _ _ _ htx hx2

theorem run_fits_excludes_overrun :
    run_fits next_cube [] NextNetState.zero overrun_events = false ∧
    run_fits next_cube [] NextNetState.zero sample_events = true := by
  decide

/-- Claim C19 at a concrete input: the sample run ends with ENABLE, SUPDATE and
COMPLETE in the RX CSR and SUPDATE and COMPLETE in the TX CSR. -/
theorem csr_bit_invariant_witness :
    (∀ e ∈ sample_events, e.valid) ∧
    (run_fits next_cube [] NextNetState.zero sample_events = true) ∧
    (run next_cube [] NextNetState.zero sample_events).map
      (fun s => (s.rx_dma.csr, s.tx_dma.csr)) = some (0x0B000000, 0x0A000000) ∧
    ∃ s, run next_cube [] NextNetState.zero sample_events = some s ∧
      s.rx_dma.csr &&& (next_cube.DMA_ENABLE ||| next_cube.DMA_SUPDATE |||
        next_cube.DMA_COMPLETE) = s.rx_dma.csr ∧
      s.tx_dma.csr &&& (next_cube.DMA_SUPDATE ||| next_cube.DMA_COMPLETE) = s.tx_dma.csr ∧
      s.tx_dma.csr &&& next_cube.DMA_ENABLE = 0 ∧
      s.rx_dma.csr &&& next_cube.DMA_RESET = 0 :=
  ⟨by simp [sample_events, Event.valid], by decide, by decide, by
    obtain ⟨s, h1, h2, h3, h4, h5⟩ := csr_bit_invariant next_cube [] sample_events
      (by simp [sample_events, Event.valid]) (by decide)
    exact ⟨s, h1, h2, h3, h4 (by decide), (h5 next_cube.DMA_RESET (by decide)).1⟩⟩

/-! ## Channel isolation -/

theorem write_tx_csr_frame (k : DmaBits) (mem : Nat → Nat) (s : NextNetState) (v : Nat) :
    (write_tx_csr k mem s v).1 =
      { s with
        tx_dma := { s.tx_dma with csr := (write_tx_csr k mem s v).1.tx_dma.csr },
        tx_stat := (write_tx_csr k mem s v).1.tx_stat } := by
  by_cases h1 : v &&& k.DMA_SETENABLE = 0 <;>
  by_cases h2 : v &&& k.DMA_SETSUPDATE = 0 <;>
  by_cases h3 : v &&& k.DMA_CLRCOMPLETE = 0 <;>
  by_cases h4 : v &&& k.DMA_RESET = 0 <;> simp [write_tx_csr, tx_enable, h1, h2, h3, h4]

theorem land_lor_self (a c : Nat) : a &&& (a ||| c) = a := by
  apply Nat.eq_of_testBit_eq; intro i
  simp only [Nat.testBit_land, Nat.testBit_lor]
  cases a.testBit i <;> cases c.testBit i <;> rfl

/-- Claim C20: (a) a 4-byte write of any value to the TX CSR (0x110) that stays
within the transfer array (if the value has the ENABLE-set bit, the TX length
fits the 1600 bytes) changes no field other than the TX CSR and the TX status
byte: TX base, limit, saved base, saved limit, every RX field, both masks, both
modes, the reset mode and the MAC are as before.
(b) `nextnet_rx` changes no field other than RX saved base, RX
saved limit, RX base, RX limit, RX status and the RX CSR, and the RX CSR
afterwards is its prior value OR `DMA_COMPLETE`, so no bit of it is lost; every
TX field is as before. -/
theorem channel_isolation (k : DmaBits) (mem : Nat → Nat) (s : NextNetState) (v : Nat)
    (buf : Nat → Nat) (n : Nat) :
    ((v &&& k.DMA_SETENABLE ≠ 0 → tx_overrun s = false) →
      (net_writel k mem s 0x110 v).1 =
        { s with
          tx_dma := { s.tx_dma with csr := (net_writel k mem s 0x110 v).1.tx_dma.csr },
          tx_stat := (net_writel k mem s 0x110 v).1.tx_stat }) ∧
    (nextnet_rx k s buf n).state =
      { s with
        rx_dma := { s.rx_dma with
          savedbase := (nextnet_rx k s buf n).state.rx_dma.savedbase,
          savedlimit := (nextnet_rx k s buf n).state.rx_dma.savedlimit,
          base := (nextnet_rx k s buf n).state.rx_dma.base,
          limit := (nextnet_rx k s buf n).state.rx_dma.limit,
          csr := s.rx_dma.csr ||| k.DMA_COMPLETE },
        rx_stat := (nextnet_rx k s buf n).state.rx_stat } ∧
    (nextnet_rx k s buf n).state.rx_dma.csr = s.rx_dma.csr ||| k.DMA_COMPLETE ∧
    s.rx_dma.csr &&& (nextnet_rx k s buf n).state.rx_dma.csr = s.rx_dma.csr ∧
    (nextnet_rx k s buf n).state.tx_dma = s.tx_dma ∧
    (nextnet_rx k s buf n).state.tx_stat = s.tx_stat := by
  have hrx := nextnet_rx_csr k s buf n
  refine ⟨fun _ => ?_, ?_, hrx.1, ?_, hrx.2, ?_⟩
  · rw [net_writel_tx_csr]
    exact write_tx_csr_frame k mem s v
  · by_cases hsu : s.rx_dma.csr &&& k.DMA_SUPDATE = 0 <;> simp [nextnet_rx, hsu]
  · rw [hrx.1]
    exact land_lor_self _ _
  · by_cases hsu : s.rx_dma.csr &&& k.DMA_SUPDATE = 0 <;> simp [nextnet_rx, hsu]

end NextNet
